import Mathlib

/-!
Verification development for the sync_fuse repository: a shallow embedding of
the FUSE session dispatcher (src/fuse/request.rs), the overflow-arithmetic
helpers (src/fuse/utils.rs) and the reference in-memory/passthrough filesystem
(src/memfs.rs), together with theorems settling the specification claims.

Modelling conventions:
* Machine integers are embedded as Nat / Int; wrapping arithmetic is explicit
  through the overflow helpers below (which mirror utils.rs).
* `BTreeMap` keyed by u64 (the inode cache) is embedded as a function
  `Nat → Option INode`; `BTreeMap<OsString, DirEntry>` (a directory map) is a
  list of entries kept sorted by name, since its iteration order is observable
  through readdir; `BTreeSet<u64>` (the trash set) is a sorted list of Nat.
* Code paths that panic (`unwrap_or_else(|| panic!(..))`, inconsistent-cache
  errors) are embedded as `Option`, returning `none`.
* Backing-store syscalls (openat, unlinkat, renameat, pwrite, fcntl) are
  assumed to succeed, as the source panics when they fail; data read from the
  backing store (file contents, directory listings, attributes) is passed in
  as explicit parameters.
* `AtomicI64` counters become plain `Int` fields; the source is dispatched
  single-threadedly (spec section 5), so sequential state passing is faithful.
-/

namespace SyncFuse

/-- Errno constants (Linux values), as used through libc in the source. -/
def ENOENT : Int := 2

/-- Errno EIO. -/
def EIO : Int := 5

/-- Errno EEXIST. -/
def EEXIST : Int := 17

/-- Errno EINVAL. -/
def EINVAL : Int := 22

/-- Errno ENOSYS. -/
def ENOSYS : Int := 38

/-- Errno ENOTEMPTY. -/
def ENOTEMPTY : Int := 39

/-- Errno ENODATA. -/
def ENODATA : Int := 61

/-- Errno EPROTO. -/
def EPROTO : Int := 71

/-! ## Overflow arithmetic (src/fuse/utils.rs)

The `impl_overflow_arithmetic!` macro implements `overflow_add`, `overflow_sub`,
`overflow_mul` and `overflow_div` for every primitive integer type by calling
the corresponding `overflowing_*` method, keeping the wrapped result and only
`debug_assert!`-ing that the overflow flag is false.  We embed an unsigned
family (parameterised by the bit width `w`, covering u8..u128 and usize) and a
signed family (covering i8..i128 and isize).  The debug assertion is compiled
out in release builds, so the embedded functions simply drop the flag. -/

/-- Wrap an unbounded integer into the unsigned range of width `w`
(the value of the two-complement bit pattern read as unsigned). -/
def wrapU (w : Nat) (x : Int) : Nat := (x % ((2 : Int) ^ w)).toNat

/-- Wrap an unbounded integer into the signed range of width `w`. -/
def wrapI (w : Nat) (x : Int) : Int :=
  (x + 2 ^ (w - 1)) % 2 ^ w - 2 ^ (w - 1)

/-- Rust `overflowing_add` on an unsigned type of width `w`:
the wrapped sum together with the overflow flag. -/
def overflowing_add_u (w : Nat) (a b : Nat) : Nat × Bool :=
  (wrapU w (a + b), decide (2 ^ w ≤ a + b))

/-- Rust `overflowing_sub` on an unsigned type of width `w`. -/
def overflowing_sub_u (w : Nat) (a b : Nat) : Nat × Bool :=
  (wrapU w ((a : Int) - b), decide (a < b))

/-- Rust `overflowing_mul` on an unsigned type of width `w`. -/
def overflowing_mul_u (w : Nat) (a b : Nat) : Nat × Bool :=
  (wrapU w (a * b), decide (2 ^ w ≤ a * b))

/-- Rust `overflowing_div` on an unsigned type: never overflows, but panics
(hence `none`) when the divisor is zero. -/
def overflowing_div_u (w : Nat) (a b : Nat) : Option (Nat × Bool) :=
  if b = 0 then none else some (wrapU w ((a : Int) / b), false)

/-- utils.rs `overflow_add` for unsigned: the `overflowing_add` result with the
flag only debug-asserted, i.e. dropped in release builds. -/
def overflow_add_u (w : Nat) (a b : Nat) : Nat := (overflowing_add_u w a b).1

/-- utils.rs `overflow_sub` for unsigned. -/
def overflow_sub_u (w : Nat) (a b : Nat) : Nat := (overflowing_sub_u w a b).1

/-- utils.rs `overflow_mul` for unsigned. -/
def overflow_mul_u (w : Nat) (a b : Nat) : Nat := (overflowing_mul_u w a b).1

/-- utils.rs `overflow_div` for unsigned. -/
def overflow_div_u (w : Nat) (a b : Nat) : Option Nat :=
  (overflowing_div_u w a b).map Prod.fst

/-- Rust `overflowing_add` on a signed type of width `w`. -/
def overflowing_add_i (w : Nat) (a b : Int) : Int × Bool :=
  (wrapI w (a + b), decide (wrapI w (a + b) ≠ a + b))

/-- Rust `overflowing_sub` on a signed type of width `w`. -/
def overflowing_sub_i (w : Nat) (a b : Int) : Int × Bool :=
  (wrapI w (a - b), decide (wrapI w (a - b) ≠ a - b))

/-- Rust `overflowing_mul` on a signed type of width `w`. -/
def overflowing_mul_i (w : Nat) (a b : Int) : Int × Bool :=
  (wrapI w (a * b), decide (wrapI w (a * b) ≠ a * b))

/-- Rust signed division truncates toward zero. -/
def tdivInt (a b : Int) : Int := Int.tdiv a b

/-- Rust `overflowing_div` on a signed type of width `w`: panics on divisor
zero (`none`); overflows exactly at MIN / -1, wrapping back to MIN. -/
def overflowing_div_i (w : Nat) (a b : Int) : Option (Int × Bool) :=
  if b = 0 then none
  else some (wrapI w (tdivInt a b), decide (wrapI w (tdivInt a b) ≠ tdivInt a b))

/-- utils.rs `overflow_add` for signed. -/
def overflow_add_i (w : Nat) (a b : Int) : Int := (overflowing_add_i w a b).1

/-- utils.rs `overflow_sub` for signed. -/
def overflow_sub_i (w : Nat) (a b : Int) : Int := (overflowing_sub_i w a b).1

/-- utils.rs `overflow_mul` for signed. -/
def overflow_mul_i (w : Nat) (a b : Int) : Int := (overflowing_mul_i w a b).1

/-- utils.rs `overflow_div` for signed. -/
def overflow_div_i (w : Nat) (a b : Int) : Option Int :=
  (overflowing_div_i w a b).map Prod.fst

/-! ## Data model (src/memfs.rs) -/

/-- nix::dir::Type - the entry type reported by the backing directory. -/
inductive NixType where
  | fifo
  | characterDevice
  | directory
  | blockDevice
  | symlink
  | socket
  | file
deriving DecidableEq, Repr

/-- fuse::FileType as used by memfs. -/
inductive FileType where
  | namedPipe
  | charDevice
  | blockDevice
  | directory
  | regularFile
  | symlink
  | socket
deriving DecidableEq, Repr

/-- memfs util::convert_node_type: maps Directory/File and panics (none) on
every other type. -/
def convert_node_type : NixType → Option FileType
  | .directory => some .directory
  | .file => some .regularFile
  | _ => none

/-- File attribute record (fuse::FileAttr); timestamps are embedded as plain
Nat values (seconds since epoch). -/
structure FileAttr where
  ino : Nat
  size : Nat
  blocks : Nat
  atime : Nat
  mtime : Nat
  ctime : Nat
  crtime : Nat
  kind : FileType
  perm : Nat
  nlink : Nat
  uid : Nat
  gid : Nat
  rdev : Nat
  flags : Nat
deriving DecidableEq, Repr

/-- memfs DirEntry. -/
structure DirEntry where
  ino : Nat
  name : String
  entry_type : NixType
deriving DecidableEq, Repr

/-! Directory map operations: a `BTreeMap<OsString, DirEntry>` embedded as a
list of entries sorted by name (BTreeMap iteration order). -/

/-- BTreeMap::get on a directory map. -/
def dmLookup (l : List DirEntry) (name : String) : Option DirEntry :=
  l.find? (fun e => e.name == name)

/-- BTreeMap::insert on a directory map: sorted insert, replacing an existing
entry with the same name. -/
def dmInsert : List DirEntry → DirEntry → List DirEntry
  | [], e => [e]
  | x :: xs, e =>
    if e.name < x.name then e :: x :: xs
    else if e.name = x.name then e :: xs
    else x :: dmInsert xs e

/-- BTreeMap::remove on a directory map (names are unique by construction, so
removing every entry with the key is the same as removing the one entry). -/
def dmRemove (l : List DirEntry) (name : String) : List DirEntry :=
  l.filter (fun e => e.name ≠ name)

/-- Trash set membership (BTreeSet::contains). -/
def tsContains (l : List Nat) (x : Nat) : Bool := l.contains x

/-- BTreeSet::insert on the trash set: sorted insert without duplicates. -/
def tsInsert : List Nat → Nat → List Nat
  | [], x => [x]
  | y :: ys, x =>
    if x < y then x :: y :: ys
    else if x = y then y :: ys
    else y :: tsInsert ys x

/-- BTreeSet::remove on the trash set. -/
def tsRemove (l : List Nat) (x : Nat) : List Nat :=
  l.filter (fun y => y ≠ x)

/-- memfs DirNode.  The backing `Dir` handle carries no observable state here;
directory contents read through it are passed explicitly where needed. -/
structure DirNode where
  parent : Nat
  name : String
  attr : FileAttr
  data : List DirEntry
  open_count : Int
  lookup_count : Int
deriving DecidableEq, Repr

/-- memfs FileNode; the backing fd is likewise left out, and `data` is the
in-memory byte buffer (bytes as Nat). -/
structure FileNode where
  parent : Nat
  name : String
  attr : FileAttr
  data : List Nat
  open_count : Int
  lookup_count : Int
deriving DecidableEq, Repr

/-- memfs INode. -/
inductive INode where
  | dir : DirNode → INode
  | file : FileNode → INode
deriving DecidableEq, Repr

namespace INode

/-- helper_get_dir_node (panics on a file node). -/
def asDir : INode → Option DirNode
  | .dir d => some d
  | .file _ => none

/-- helper_get_file_node (panics on a dir node). -/
def asFile : INode → Option FileNode
  | .dir _ => none
  | .file f => some f

/-- get_attr. -/
def get_attr : INode → FileAttr
  | .dir d => d.attr
  | .file f => f.attr

/-- get_ino. -/
def get_ino (n : INode) : Nat := n.get_attr.ino

/-- get_parent_ino. -/
def get_parent_ino : INode → Nat
  | .dir d => d.parent
  | .file f => f.parent

/-- set_parent_ino. -/
def set_parent_ino : INode → Nat → INode
  | .dir d, p => .dir { d with parent := p }
  | .file f, p => .file { f with parent := p }

/-- get_name. -/
def get_name : INode → String
  | .dir d => d.name
  | .file f => f.name

/-- set_name. -/
def set_name : INode → String → INode
  | .dir d, s => .dir { d with name := s }
  | .file f, s => .file { f with name := s }

/-- get_type. -/
def get_type : INode → NixType
  | .dir _ => .directory
  | .file _ => .file

/-- get_open_count. -/
def get_open_count : INode → Int
  | .dir d => d.open_count
  | .file f => f.open_count

/-- get_lookup_count. -/
def get_lookup_count : INode → Int
  | .dir d => d.lookup_count
  | .file f => f.lookup_count

/-- inc_open_count (fetch_add 1). -/
def inc_open_count : INode → INode
  | .dir d => .dir { d with open_count := d.open_count + 1 }
  | .file f => .file { f with open_count := f.open_count + 1 }

/-- dec_open_count (fetch_sub 1); only a debug assertion prevents the count
from going negative. -/
def dec_open_count : INode → INode
  | .dir d => .dir { d with open_count := d.open_count - 1 }
  | .file f => .file { f with open_count := f.open_count - 1 }

/-- inc_lookup_count (fetch_add 1). -/
def inc_lookup_count : INode → INode
  | .dir d => .dir { d with lookup_count := d.lookup_count + 1 }
  | .file f => .file { f with lookup_count := f.lookup_count + 1 }

/-- dec_lookup_count_by (fetch_sub nlookup); again only debug-asserted. -/
def dec_lookup_count_by : INode → Nat → INode
  | .dir d, n => .dir { d with lookup_count := d.lookup_count - n }
  | .file f, n => .file { f with lookup_count := f.lookup_count - n }

/-- get_entry on a directory inode (panics on a file node). -/
def get_entry (n : INode) (name : String) : Option (Option DirEntry) :=
  (n.asDir).map (fun d => dmLookup d.data name)

/-- insert_entry on a directory inode, keeping the node shape. -/
def insert_entry : INode → DirEntry → INode
  | .dir d, e => .dir { d with data := dmInsert d.data e }
  | .file f, _ => .file f

/-- remove_entry on a directory inode, keeping the node shape. -/
def remove_entry : INode → String → INode
  | .dir d, name => .dir { d with data := dmRemove d.data name }
  | .file f, _ => .file f

/-- is_empty. -/
def is_empty : INode → Bool
  | .dir d => d.data.isEmpty
  | .file f => f.data.isEmpty

/-- need_load_data: data empty and attribute size nonzero. -/
def need_load_data (n : INode) : Bool :=
  n.is_empty && decide (0 < n.get_attr.size)

end INode

/-! ## The inode cache and trash set (MemoryFilesystem) -/

/-- BTreeMap::insert on the inode cache (embedded as a function map). -/
def cacheInsert (c : Nat → Option INode) (k : Nat) (v : INode) : Nat → Option INode :=
  fun i => if i = k then some v else c i

/-- BTreeMap::remove on the inode cache. -/
def cacheRemove (c : Nat → Option INode) (k : Nat) : Nat → Option INode :=
  fun i => if i = k then none else c i

/-- In-place mutation of the inode stored under `k` (the source mutates nodes
through interior mutability while they sit in the map). -/
def cacheAdjust (c : Nat → Option INode) (k : Nat) (f : INode → INode) :
    Nat → Option INode :=
  fun i => if i = k then (c k).map f else c i

/-- memfs MemoryFilesystem: the inode cache plus the deferred-delete set. -/
structure MemoryFilesystem where
  cache : Nat → Option INode
  trash : List Nat

/-- An entry as yielded by the backing `Dir` iterator (nix::dir::Entry);
`ftype` is `Entry::file_type()`, which may be unknown. -/
structure BackingEntry where
  ino : Nat
  name : String
  ftype : Option NixType
deriving DecidableEq, Repr

/-- The hidden-entry test of helper_load_dir_data:
checking whether the first byte of the file name is a dot. -/
def isHiddenName (s : String) : Bool :=
  match s.data with
  | [] => false
  | c :: _ => c == '.'

/-- INode::helper_load_dir_data: collect the backing entries that are not
hidden and whose type passes the filter, then insert them into the current
directory map.  Note the type filter of the source maps `Type::Directory`
to false, keeping only `Type::File`. -/
def load_dir_data (data : List DirEntry) (backing : List BackingEntry) : List DirEntry :=
  let dir_entry :=
    (backing.filter (fun e => !(isHiddenName e.name))).filter
      (fun e =>
        match e.ftype with
        | some t =>
          match t with
          | .fifo | .characterDevice | .directory | .blockDevice | .symlink
          | .socket => false
          | .file => true
        | none => false)
  dir_entry.foldl
    (fun m e =>
      dmInsert m
        { ino := e.ino, name := e.name,
          entry_type := match e.ftype with | some t => t | none => NixType.file })
    data

/-- The directory map a read sees: helper_load_dir_data runs first when
need_load_data holds (INode::read_dir). -/
def DirNode.loadedData (backing : List BackingEntry) (d : DirNode) : List DirEntry :=
  if (INode.dir d).need_load_data then load_dir_data d.data backing else d.data

/-- The byte buffer a read sees: helper_load_file_data fills the buffer from
the backing fd first when need_load_data holds (INode::read_file). -/
def FileNode.loadedData (disk : List Nat) (f : FileNode) : List Nat :=
  if (INode.file f).need_load_data then disk else f.data

/-! ## Filesystem operations (impl Filesystem for MemoryFilesystem) -/

/-- The read closure of MemoryFilesystem::read: reply EINVAL when the offset
is not below the content length, else the slice up to `offset + size`
(computed with overflow_add on usize) capped at the content length.  A wrapped
upper bound below the offset would make the slice indexing of the source panic
(`none`). -/
def read_helper (content : List Nat) (offset size : Nat) :
    Option (Except Int (List Nat)) :=
  if offset < content.length then
    let upper := overflow_add_u 64 offset size
    if upper < content.length then
      if offset ≤ upper then
        some (Except.ok ((content.drop offset).take (upper - offset)))
      else none
    else some (Except.ok (content.drop offset))
  else some (Except.error EINVAL)

/-- MemoryFilesystem::read: look up the inode (panics when absent), read the
(lazily loaded) file content through read_file, and apply the read closure.
`disk` is what helper_load_file_data would read from the backing fd. -/
def MemoryFilesystem.read (disk : List Nat) (fs : MemoryFilesystem) (ino : Nat)
    (offset size : Nat) : Option (Except Int (List Nat)) := do
  let inode ← fs.cache ino
  let f ← inode.asFile
  read_helper (f.loadedData disk) offset size

/-- INode::write_file: truncate the buffer to `offset` when it is longer,
zero-pad up to `offset` when shorter, append the data, write through to disk
(assumed to succeed), and set size and mtime.  Returns the written size. -/
def FileNode.write_file (f : FileNode) (offset : Nat) (data : List Nat)
    (now : Nat) : FileNode × Nat :=
  let truncated :=
    if offset < f.data.length then f.data.take offset
    else if f.data.length < offset then
      f.data ++ List.replicate (overflow_sub_u 64 offset f.data.length) 0
    else f.data
  let newData := truncated ++ data
  let written := data.length
  ({ f with data := newData,
            attr := { f.attr with size := newData.length, mtime := now } },
   written)

/-- MemoryFilesystem::write: look up the inode (panics when absent, and
write_file panics on a directory node), run write_file, reply written size. -/
def MemoryFilesystem.write (fs : MemoryFilesystem) (ino : Nat) (offset : Nat)
    (data : List Nat) (now : Nat) : Option (MemoryFilesystem × Nat) := do
  let inode ← fs.cache ino
  let f ← inode.asFile
  let r := f.write_file offset data now
  some ({ fs with cache := cacheAdjust fs.cache ino (fun _ => INode.file r.1) },
        r.2)

/-- The u64/usize value of an i64 bit pattern (as-cast in Rust). -/
def i64ToUsize (x : Int) : Nat := wrapU 64 x

/-- The readdir closure of MemoryFilesystem::readdir: iterate the directory
map enumerated and skipped by the kernel offset, emitting for the entry with
enumerate index `i` the record `(ino, offset + i + 1, kind, name)` with both
additions performed by overflow_add on i64.  convert_node_type panics on
unsupported entry types (`none`).  The ReplyDirectory buffer bound is not
consulted: the source ignores the return value of `reply.add`. -/
def readdir_helper (data : List DirEntry) (offset : Int) :
    Option (List (Nat × Int × FileType × String)) :=
  ((data.enum).drop (i64ToUsize offset)).mapM
    (fun p =>
      (convert_node_type p.2.entry_type).map
        (fun k =>
          (p.2.ino, overflow_add_i 64 (overflow_add_i 64 offset (wrapI 64 p.1)) 1,
           k, p.2.name)))

/-- MemoryFilesystem::readdir: look up the inode (panics when absent; read_dir
panics on a file node), lazily load the directory map, and run the closure. -/
def MemoryFilesystem.readdir (backing : List BackingEntry)
    (fs : MemoryFilesystem) (ino : Nat) (offset : Int) :
    Option (List (Nat × Int × FileType × String)) := do
  let inode ← fs.cache ino
  let d ← inode.asDir
  readdir_helper (d.loadedData backing) offset

/-- MemoryFilesystem::helper_may_deferred_delete_node: remove the entry of
the child from its parent and unlink it on disk; then either move the inode to
the trash (deferred deletion, when its lookup count is positive) or drop it
from the cache immediately. -/
def MemoryFilesystem.helper_may_deferred_delete_node (fs : MemoryFilesystem)
    (ino : Nat) : Option MemoryFilesystem := do
  let inode ← fs.cache ino
  let parent_ino := inode.get_parent_ino
  let parentInode ← fs.cache parent_ino
  let pd ← parentInode.asDir
  let deleted ← dmLookup pd.data inode.get_name
  let _ ← (match deleted.entry_type with
    | NixType.directory => some ()
    | NixType.file => some ()
    | _ => none)
  let cache1 := cacheAdjust fs.cache parent_ino (fun n => n.remove_entry inode.get_name)
  if 0 < inode.get_lookup_count then
    some { cache := cache1, trash := tsInsert fs.trash ino }
  else
    some { cache := cacheRemove cache1 ino, trash := fs.trash }

/-- MemoryFilesystem::helper_remove_node: the shared body of unlink and rmdir.
Pre-checks: the parent is cached (panic otherwise), the named child exists
(ENOENT otherwise), and for rmdir the child directory is empty (ENOTEMPTY
otherwise); then helper_may_deferred_delete_node runs and ok is replied. -/
def MemoryFilesystem.helper_remove_node (fs : MemoryFilesystem) (parent : Nat)
    (node_name : String) (node_type : NixType) :
    Option (MemoryFilesystem × Except Int Unit) := do
  let node_kind ← convert_node_type node_type
  let parentInode ← fs.cache parent
  let pd ← parentInode.asDir
  match dmLookup pd.data node_name with
  | none => some (fs, Except.error ENOENT)
  | some child_entry =>
    let node_ino := child_entry.ino
    let finish : Option (MemoryFilesystem × Except Int Unit) := do
      let _ ← fs.cache node_ino
      let fs2 ← fs.helper_may_deferred_delete_node node_ino
      some (fs2, Except.ok ())
    if node_kind = FileType.directory then
      match fs.cache node_ino with
      | none => none
      | some dirInode =>
        if dirInode.is_empty = false then some (fs, Except.error ENOTEMPTY)
        else finish
    else finish

/-- MemoryFilesystem::unlink. -/
def MemoryFilesystem.unlink (fs : MemoryFilesystem) (parent : Nat)
    (name : String) : Option (MemoryFilesystem × Except Int Unit) :=
  fs.helper_remove_node parent name NixType.file

/-- MemoryFilesystem::rmdir. -/
def MemoryFilesystem.rmdir (fs : MemoryFilesystem) (parent : Nat)
    (name : String) : Option (MemoryFilesystem × Except Int Unit) :=
  fs.helper_remove_node parent name NixType.directory

/-- MemoryFilesystem::forget: decrement the lookup count by nlookup; when the
resulting count is exactly zero and the inode is in the trash, remove it from
the cache and the trash.  No reply is sent by protocol. -/
def MemoryFilesystem.forget (fs : MemoryFilesystem) (ino : Nat) (nlookup : Nat) :
    Option MemoryFilesystem := do
  let inode ← fs.cache ino
  let cache1 := cacheAdjust fs.cache ino (fun n => n.dec_lookup_count_by nlookup)
  let current : Int := inode.get_lookup_count - nlookup
  if current = 0 ∧ tsContains fs.trash ino then
    some { cache := cacheRemove cache1 ino, trash := tsRemove fs.trash ino }
  else
    some { cache := cache1, trash := fs.trash }

/-- MemoryFilesystem::release: close the duplicated fd (assumed to succeed),
reply ok, decrement the open count (debug-asserted nonnegative only). -/
def MemoryFilesystem.release (fs : MemoryFilesystem) (ino : Nat) :
    Option MemoryFilesystem := do
  let _ ← fs.cache ino
  some { fs with cache := cacheAdjust fs.cache ino INode.dec_open_count }

/-- MemoryFilesystem::releasedir: same state effect as release. -/
def MemoryFilesystem.releasedir (fs : MemoryFilesystem) (ino : Nat) :
    Option MemoryFilesystem := do
  let _ ← fs.cache ino
  some { fs with cache := cacheAdjust fs.cache ino INode.dec_open_count }

/-- MemoryFilesystem::open: dup_fd duplicates the backing descriptor and
increments the open count; the new fd is replied as the file handle. -/
def MemoryFilesystem.openOp (fs : MemoryFilesystem) (ino : Nat) :
    Option MemoryFilesystem := do
  let _ ← fs.cache ino
  some { fs with cache := cacheAdjust fs.cache ino INode.inc_open_count }

/-- MemoryFilesystem::opendir: same state effect as open. -/
def MemoryFilesystem.opendirOp (fs : MemoryFilesystem) (ino : Nat) :
    Option MemoryFilesystem := do
  let _ ← fs.cache ino
  some { fs with cache := cacheAdjust fs.cache ino INode.inc_open_count }

/-- INode::helper_open_child_dir with create_dir = false: open the child
directory from the backing store; `child_attr` is the attribute record read
from the new fd, `backing` the backing listing for the lazy load.  Open and
lookup count start at 1. -/
def INode.open_child_dir (parent : Nat) (child_dir_name : String)
    (child_attr : FileAttr) (backing : List BackingEntry) : INode :=
  let node : DirNode :=
    { parent := parent, name := child_dir_name, attr := child_attr,
      data := [], open_count := 1, lookup_count := 1 }
  if (INode.dir node).need_load_data then
    INode.dir { node with data := load_dir_data node.data backing }
  else INode.dir node

/-- INode::helper_open_child_file with create_file = false. -/
def INode.open_child_file (parent : Nat) (child_file_name : String)
    (child_attr : FileAttr) : INode :=
  INode.file
    { parent := parent, name := child_file_name, attr := child_attr,
      data := [], open_count := 1, lookup_count := 1 }

/-- MemoryFilesystem::lookup: resolve the name in the parent map (ENOENT when
absent); on a cache hit reply the cached attributes and increment the lookup
count (lookup_attr); on a miss open the child from the backing store
(attributes `child_attr`, listing `backing`), reply, and insert it. -/
def MemoryFilesystem.lookup (fs : MemoryFilesystem) (parent : Nat)
    (name : String) (child_attr : FileAttr) (backing : List BackingEntry) :
    Option (MemoryFilesystem × Except Int FileAttr) := do
  let parentInode ← fs.cache parent
  let pd ← parentInode.asDir
  match dmLookup pd.data name with
  | none => some (fs, Except.error ENOENT)
  | some child_entry => do
    let child_type ← convert_node_type child_entry.entry_type
    let ino := child_entry.ino
    match fs.cache ino with
    | some inode =>
      some ({ fs with cache := cacheAdjust fs.cache ino INode.inc_lookup_count },
            Except.ok inode.get_attr)
    | none => do
      let childInode ←
        (match child_type with
         | FileType.directory =>
           some (INode.open_child_dir parent name child_attr backing)
         | FileType.regularFile =>
           some (INode.open_child_file parent name child_attr)
         | _ => none)
      let child_ino := childInode.get_ino
      let replied := childInode.get_attr
      some ({ fs with cache := cacheInsert fs.cache child_ino childInode.inc_lookup_count },
            Except.ok replied)

/-- MemoryFilesystem::helper_create_node: the shared body of mknod, mkdir and
create.  EEXIST when the parent already has an entry of that name; otherwise
create on the backing store (attributes read back as `child_attr`; a freshly
created node has an empty backing store), insert the entry into the parent map
and the node into the cache with open and lookup count 1, and reply entry. -/
def MemoryFilesystem.helper_create_node (fs : MemoryFilesystem) (parent : Nat)
    (node_name : String) (node_type : NixType) (child_attr : FileAttr) :
    Option (MemoryFilesystem × Except Int FileAttr) := do
  let node_kind ← convert_node_type node_type
  let parentInode ← fs.cache parent
  let occupied ← parentInode.get_entry node_name
  match occupied with
  | some _ => some (fs, Except.error EEXIST)
  | none =>
    let newInode : INode :=
      match node_kind with
      | FileType.directory => INode.open_child_dir parent node_name child_attr []
      | _ => INode.open_child_file parent node_name child_attr
    let entry_type :=
      match node_kind with
      | FileType.directory => NixType.directory
      | _ => NixType.file
    let cache1 := cacheAdjust fs.cache parent
      (fun n => n.insert_entry
        { ino := child_attr.ino, name := node_name, entry_type := entry_type })
    some ({ fs with cache := cacheInsert cache1 newInode.get_ino newInode },
          Except.ok newInode.get_attr)

/-- MemoryFilesystem::mknod (mode and rdev only reach the backing store). -/
def MemoryFilesystem.mknod (fs : MemoryFilesystem) (parent : Nat)
    (name : String) (child_attr : FileAttr) :
    Option (MemoryFilesystem × Except Int FileAttr) :=
  fs.helper_create_node parent name NixType.file child_attr

/-- MemoryFilesystem::mkdir. -/
def MemoryFilesystem.mkdir (fs : MemoryFilesystem) (parent : Nat)
    (name : String) (child_attr : FileAttr) :
    Option (MemoryFilesystem × Except Int FileAttr) :=
  fs.helper_create_node parent name NixType.directory child_attr

/-- MemoryFilesystem::rename.  Pre-checks: the old parent is cached (panic
otherwise), the old name resolves (ENOENT otherwise), its inode and the new
parent are cached (panic otherwise); the destination name must not exist
(EEXIST, RENAME_NOREPLACE).  Then the parent and name fields of the child are
updated, the entry moves between the maps, the backing renameat runs, and the
attribute reload is used only in debug assertions. -/
def MemoryFilesystem.rename (fs : MemoryFilesystem) (parent : Nat)
    (name : String) (new_parent : Nat) (newname : String) :
    Option (MemoryFilesystem × Except Int Unit) := do
  let parentInode ← fs.cache parent
  let pd ← parentInode.asDir
  match dmLookup pd.data name with
  | none => some (fs, Except.error ENOENT)
  | some old_entry => do
    let _ ← fs.cache old_entry.ino
    let newParentInode ← fs.cache new_parent
    let npd ← newParentInode.asDir
    match dmLookup npd.data newname with
    | some _ => some (fs, Except.error EEXIST)
    | none =>
      let cache1 := cacheAdjust fs.cache old_entry.ino
        (fun n => (n.set_parent_ino new_parent).set_name newname)
      let cache2 := cacheAdjust cache1 parent (fun n => n.remove_entry name)
      let cache3 := cacheAdjust cache2 new_parent
        (fun n => n.insert_entry { old_entry with name := newname })
      some ({ fs with cache := cache3 }, Except.ok ())

/-- The coalesced setattr parameters (FsSetattrParam); times are Nat. -/
structure FsSetattrParam where
  ino : Nat
  mode : Option Nat
  uid : Option Nat
  gid : Option Nat
  size : Option Nat
  atime : Option Nat
  mtime : Option Nat
  fh : Option Nat
  crtime : Option Nat
  chgtime : Option Nat
  bkuptime : Option Nat
  flags : Option Nat
deriving DecidableEq, Repr

/-- Replace the attribute record of an inode (INode::set_attr). -/
def INode.with_attr : INode → FileAttr → INode
  | .dir d, a => .dir { d with attr := a }
  | .file f, a => .file { f with attr := a }

/-- MemoryFilesystem::setattr: merge the present fields into the attribute
record (mode through parse_mode_bits, i.e. the permission bits); when at
least one field is present bump ctime and reply the attributes, else reply
ENODATA. -/
def MemoryFilesystem.setattr (fs : MemoryFilesystem) (param : FsSetattrParam)
    (now : Nat) : Option (MemoryFilesystem × Except Int FileAttr) := do
  let inode ← fs.cache param.ino
  let attr0 := inode.get_attr
  let attr1 : FileAttr :=
    { attr0 with
      perm := match param.mode with
              | some m => Nat.land m 4095
              | none => attr0.perm,
      uid := param.uid.getD attr0.uid,
      gid := param.gid.getD attr0.gid,
      size := param.size.getD attr0.size,
      atime := param.atime.getD attr0.atime,
      mtime := param.mtime.getD attr0.mtime,
      crtime := param.crtime.getD attr0.crtime,
      flags := param.flags.getD attr0.flags }
  if param.mode.isSome ∨ param.uid.isSome ∨ param.gid.isSome ∨
     param.size.isSome ∨ param.atime.isSome ∨ param.mtime.isSome ∨
     param.crtime.isSome ∨ param.chgtime.isSome ∨ param.bkuptime.isSome ∨
     param.flags.isSome then
    let attr2 := { attr1 with ctime := now }
    some ({ fs with cache := cacheAdjust fs.cache param.ino (fun n => n.with_attr attr2) },
          Except.ok attr2)
  else
    some (fs, Except.error ENODATA)

/-! ## Session state and dispatch (src/fuse/request.rs) -/

/-- Session protocol state (fuse::Session). -/
structure SessionState where
  proto_major : Nat
  proto_minor : Nat
  initialized : Bool
  destroyed : Bool
deriving DecidableEq, Repr

/-- fuse_init_in (the client half used by dispatch). -/
structure FuseInitIn where
  major : Nat
  minor : Nat
  max_readahead : Nat
  flags : Nat
deriving DecidableEq, Repr

/-- fuse_init_out (abi-7-8 shape; the unused field is dropped). -/
structure FuseInitOut where
  major : Nat
  minor : Nat
  max_readahead : Nat
  flags : Nat
  max_write : Nat
deriving DecidableEq, Repr

/-- abi.rs FUSE_KERNEL_VERSION. -/
def FUSE_KERNEL_VERSION : Nat := 7

/-- abi.rs FUSE_KERNEL_MINOR_VERSION at the default ABI 7.8. -/
def FUSE_KERNEL_MINOR_VERSION : Nat := 8

/-- abi.rs consts::FUSE_ASYNC_READ. -/
def FUSE_ASYNC_READ : Nat := 1

/-- request.rs INIT_FLAGS (non-macOS: FUSE_ASYNC_READ). -/
def INIT_FLAGS : Nat := FUSE_ASYNC_READ

/-- The operation groups distinguished by the dispatch switch; every
filesystem-bound opcode behaves alike for the session-level checks and is
collapsed into fsOp. -/
inductive SessionOperation where
  | init (arg : FuseInitIn)
  | destroy
  | interrupt
  | fsOp
  | noImplementation
deriving DecidableEq, Repr

/-- What the dispatcher sends back for a request (none = no reply written). -/
inductive SessionReply where
  | raw (out : FuseInitOut)
  | empty
  | err (e : Int)
  | delegated
deriving DecidableEq, Repr

/-- Rust `as u32` cast. -/
def u32cast (x : Nat) : Nat := x % 2 ^ 32

/-- The Operation::Init arm of Request::dispatch.  BUFFER_SIZE and
MAX_WRITE_SIZE live in the session module and are taken as parameters.  The
filesystem init method is MemoryFilesystem::init, which always returns Ok(()),
so the error-forwarding branch is never taken. -/
def dispatch_init (bufferSize maxWriteSize : Nat) (se : SessionState)
    (arg : FuseInitIn) : SessionState × Option SessionReply :=
  if arg.major < 7 ∨ (arg.major = 7 ∧ arg.minor < 6) then
    (se, some (SessionReply.err EPROTO))
  else
    let se1 := { se with proto_major := arg.major, proto_minor := arg.minor }
    let out : FuseInitOut :=
      { major := FUSE_KERNEL_VERSION
        minor := FUSE_KERNEL_MINOR_VERSION
        max_readahead :=
          if u32cast bufferSize < arg.max_readahead then u32cast bufferSize
          else arg.max_readahead
        flags := Nat.land arg.flags INIT_FLAGS
        max_write := u32cast maxWriteSize }
    ({ se1 with initialized := true }, some (SessionReply.raw out))

/-- Request::dispatch, at the granularity of the session-level match: Init is
handled first; any other operation before initialization gets EIO; Destroy
sets destroyed and replies empty; any operation after destroy gets EIO;
Interrupt gets ENOSYS; NoImplementation is only logged - no reply is sent;
everything else is delegated to the filesystem. -/
def dispatch (bufferSize maxWriteSize : Nat) (se : SessionState)
    (op : SessionOperation) : SessionState × Option SessionReply :=
  match op with
  | .init arg => dispatch_init bufferSize maxWriteSize se arg
  | .destroy =>
    if se.initialized = false then (se, some (SessionReply.err EIO))
    else ({ se with destroyed := true }, some SessionReply.empty)
  | .interrupt =>
    if se.initialized = false then (se, some (SessionReply.err EIO))
    else if se.destroyed then (se, some (SessionReply.err EIO))
    else (se, some (SessionReply.err ENOSYS))
  | .noImplementation =>
    if se.initialized = false then (se, some (SessionReply.err EIO))
    else if se.destroyed then (se, some (SessionReply.err EIO))
    else (se, none)
  | .fsOp =>
    if se.initialized = false then (se, some (SessionReply.err EIO))
    else if se.destroyed then (se, some (SessionReply.err EIO))
    else (se, some SessionReply.delegated)

/-! ## General lemmas about the wrapping helpers -/

theorem wrapU_natCast (w n : Nat) : wrapU w (n : Int) = n % 2 ^ w := by
  unfold wrapU
  rw [show ((2 : Int) ^ w) = ((2 ^ w : Nat) : Int) by push_cast; ring, ← Int.natCast_mod]
  exact Int.toNat_natCast _

theorem wrapI_eq_self (w : Nat) (x : Int) (hw : 0 < w)
    (h1 : -(2 ^ (w - 1)) ≤ x) (h2 : x < 2 ^ (w - 1)) : wrapI w x = x := by
  unfold wrapI
  have h2w : (2 : Int) ^ w = 2 ^ (w - 1) * 2 := by
    rw [← pow_succ]
    congr 1
    omega
  rw [Int.emod_eq_of_lt (by omega) (by omega)]
  omega

theorem wrapI_lb (w : Nat) (x : Int) : -(2 ^ (w - 1)) ≤ wrapI w x := by
  unfold wrapI
  have := Int.emod_nonneg (x + 2 ^ (w - 1)) (b := 2 ^ w) (by positivity)
  omega

theorem wrapI_ub (w : Nat) (x : Int) (hw : 0 < w) : wrapI w x < 2 ^ (w - 1) := by
  unfold wrapI
  have h2w : (2 : Int) ^ w = 2 ^ (w - 1) * 2 := by
    rw [← pow_succ]; congr 1; omega
  have := Int.emod_lt_of_pos (x + 2 ^ (w - 1)) (b := 2 ^ w) (by positivity)
  omega

theorem wrapI_modeq (w : Nat) (x : Int) : wrapI w x % 2 ^ w = x % 2 ^ w := by
  unfold wrapI
  conv_lhs => rw [Int.sub_emod, Int.emod_emod_of_dvd _ dvd_rfl, ← Int.sub_emod]
  simp [Int.add_sub_cancel]

theorem overflow_add_u_eq (w a b : Nat) : overflow_add_u w a b = (a + b) % 2 ^ w := by
  unfold overflow_add_u overflowing_add_u
  rw [show ((a : Int) + b) = ((a + b : Nat) : Int) by push_cast; ring, wrapU_natCast]

theorem overflow_sub_u_eq (w a b : Nat) :
    ((overflow_sub_u w a b : Nat) : Int) = ((a : Int) - b) % 2 ^ w := by
  unfold overflow_sub_u overflowing_sub_u wrapU
  exact Int.toNat_of_nonneg (Int.emod_nonneg _ (by positivity))

theorem overflow_sub_u_of_le (w a b : Nat) (hba : b ≤ a) (ha : a < 2 ^ w) :
    overflow_sub_u w a b = a - b := by
  unfold overflow_sub_u overflowing_sub_u
  rw [show ((a : Int) - b) = ((a - b : Nat) : Int) by rw [Nat.cast_sub hba], wrapU_natCast,
    Nat.mod_eq_of_lt (by omega)]

theorem overflow_mul_u_eq (w a b : Nat) : overflow_mul_u w a b = a * b % 2 ^ w := by
  unfold overflow_mul_u overflowing_mul_u
  rw [show ((a : Int) * b) = ((a * b : Nat) : Int) by push_cast; ring, wrapU_natCast]

theorem overflow_add_i_eq (w : Nat) (a b : Int) : overflow_add_i w a b = wrapI w (a + b) := rfl

theorem overflow_add_u_eq_self (w a b : Nat) (h : a + b < 2 ^ w) :
    overflow_add_u w a b = a + b := by
  rw [overflow_add_u_eq, Nat.mod_eq_of_lt h]

theorem overflow_add_i_eq_self (w : Nat) (a b : Int) (hw : 0 < w)
    (h1 : -(2 ^ (w - 1)) ≤ a + b) (h2 : a + b < 2 ^ (w - 1)) :
    overflow_add_i w a b = a + b :=
  wrapI_eq_self w (a + b) hw h1 h2

/-! ## Theorems for the claims -/

/-- C10: the overflow_add, overflow_sub, overflow_mul and overflow_div
helpers return the wrapping (overflowing) result for every pair of operands:
each unsigned helper is the residue of the exact result modulo 2 ^ w, each
signed helper is the exact result reduced into the signed range of width w
(agreeing with the exact result modulo 2 ^ w), and division returns the plain
quotient whenever the divisor is nonzero (panicking, not wrapping, on a zero
divisor).  The overflow flag is only debug-asserted, so the helpers are total
on those inputs and silently wrap, as the concrete overflow instances at the
end show. -/
theorem c10_overflow_arithmetic_wraps :
    (∀ w a b : Nat, overflow_add_u w a b = (a + b) % 2 ^ w) ∧
    (∀ w a b : Nat, ((overflow_sub_u w a b : Nat) : Int) = ((a : Int) - b) % 2 ^ w) ∧
    (∀ w a b : Nat, overflow_mul_u w a b = a * b % 2 ^ w) ∧
    (∀ w a b : Nat, a < 2 ^ w → b ≠ 0 → overflow_div_u w a b = some (a / b)) ∧
    (∀ w a : Nat, overflow_div_u w a 0 = none) ∧
    (∀ (w : Nat) (a b : Int), 0 < w →
      overflow_add_i w a b % 2 ^ w = (a + b) % 2 ^ w ∧
      -(2 ^ (w - 1)) ≤ overflow_add_i w a b ∧ overflow_add_i w a b < 2 ^ (w - 1)) ∧
    (∀ (w : Nat) (a b : Int), 0 < w →
      overflow_sub_i w a b % 2 ^ w = (a - b) % 2 ^ w ∧
      -(2 ^ (w - 1)) ≤ overflow_sub_i w a b ∧ overflow_sub_i w a b < 2 ^ (w - 1)) ∧
    (∀ (w : Nat) (a b : Int), 0 < w →
      overflow_mul_i w a b % 2 ^ w = (a * b) % 2 ^ w ∧
      -(2 ^ (w - 1)) ≤ overflow_mul_i w a b ∧ overflow_mul_i w a b < 2 ^ (w - 1)) ∧
    overflow_add_u 64 (2 ^ 64 - 1) 1 = 0 ∧
    overflow_add_i 64 (2 ^ 63 - 1) 1 = -(2 ^ 63) ∧
    overflow_mul_u 32 (2 ^ 31) 2 = 0 ∧
    overflow_div_i 64 (-(2 ^ 63)) (-1) = some (-(2 ^ 63)) := by
  refine ⟨overflow_add_u_eq, overflow_sub_u_eq, overflow_mul_u_eq, ?_, ?_, ?_, ?_, ?_,
    by decide, by decide, by decide, by decide⟩
  · intro w a b ha hb
    have hq : wrapU w ((a : Int) / b) = a / b := by
      rw [show ((a : Int) / b) = ((a / b : Nat) : Int) from (Int.natCast_div a b).symm,
        wrapU_natCast, Nat.mod_eq_of_lt (lt_of_le_of_lt (Nat.div_le_self a b) ha)]
    simp [overflow_div_u, overflowing_div_u, hb, hq]
  · intro w a
    unfold overflow_div_u overflowing_div_u
    simp
  · intro w a b hw
    exact ⟨wrapI_modeq w (a + b), wrapI_lb w (a + b), wrapI_ub w (a + b) hw⟩
  · intro w a b hw
    exact ⟨wrapI_modeq w (a - b), wrapI_lb w (a - b), wrapI_ub w (a - b) hw⟩
  · intro w a b hw
    exact ⟨wrapI_modeq w (a * b), wrapI_lb w (a * b), wrapI_ub w (a * b) hw⟩

/-- Witness for C10: the theorem applied at concrete inputs, discharging the
hypotheses of the division and signed conjuncts. -/
theorem c10_overflow_arithmetic_wraps_witness :
    overflow_div_u 64 7 2 = some 3 ∧ overflow_add_i 64 5 6 % 2 ^ 64 = 11 % 2 ^ 64 := by
  constructor
  · simpa using c10_overflow_arithmetic_wraps.2.2.2.1 64 7 2 (by decide) (by decide)
  · exact (c10_overflow_arithmetic_wraps.2.2.2.2.2.1 64 5 6 (by decide)).1

/-- C4: the INIT handshake.  A client version below 7.6 is answered EPROTO
with the session state unchanged (initialized stays false); any other version
is recorded in proto_major and proto_minor, initialized is set, and the reply
carries major FUSE_KERNEL_VERSION, minor FUSE_KERNEL_MINOR_VERSION,
max_readahead the minimum of BUFFER_SIZE and the client value, flags the
client flags masked with INIT_FLAGS, and max_write MAX_WRITE_SIZE. -/
theorem c4_init_handshake (bufferSize maxWriteSize : Nat) (se : SessionState)
    (arg : FuseInitIn) (hbuf : bufferSize < 2 ^ 32) (hmw : maxWriteSize < 2 ^ 32) :
    ((arg.major < 7 ∨ (arg.major = 7 ∧ arg.minor < 6)) →
      dispatch bufferSize maxWriteSize se (SessionOperation.init arg) =
        (se, some (SessionReply.err EPROTO))) ∧
    (¬ (arg.major < 7 ∨ (arg.major = 7 ∧ arg.minor < 6)) →
      dispatch bufferSize maxWriteSize se (SessionOperation.init arg) =
        ({ se with proto_major := arg.major, proto_minor := arg.minor,
                   initialized := true },
         some (SessionReply.raw
           { major := FUSE_KERNEL_VERSION, minor := FUSE_KERNEL_MINOR_VERSION,
             max_readahead := min bufferSize arg.max_readahead,
             flags := Nat.land arg.flags INIT_FLAGS,
             max_write := maxWriteSize }))) := by
  have hcast : u32cast bufferSize = bufferSize := Nat.mod_eq_of_lt hbuf
  have hcastw : u32cast maxWriteSize = maxWriteSize := Nat.mod_eq_of_lt hmw
  constructor
  · intro h
    simp [dispatch, dispatch_init, h]
  · intro h
    have hstep : dispatch bufferSize maxWriteSize se (SessionOperation.init arg) =
        dispatch_init bufferSize maxWriteSize se arg := rfl
    have hmin : (if u32cast bufferSize < arg.max_readahead then u32cast bufferSize
        else arg.max_readahead) = min bufferSize arg.max_readahead := by
      rw [hcast, Nat.min_def]
      by_cases hlt : bufferSize < arg.max_readahead
      · rw [if_pos hlt, if_pos (le_of_lt hlt)]
      · rw [if_neg hlt]
        by_cases hle : bufferSize ≤ arg.max_readahead
        · rw [if_pos hle, le_antisymm hle (Nat.not_lt.mp hlt)]
        · rw [if_neg hle]
    rw [hstep]
    unfold dispatch_init
    rw [if_neg h, hmin, hcastw]

/-- Witness for C4: both branches of the handshake at concrete inputs. -/
theorem c4_init_handshake_witness :
    dispatch 135168 131072
        { proto_major := 0, proto_minor := 0, initialized := false, destroyed := false }
        (SessionOperation.init { major := 7, minor := 8, max_readahead := 131072, flags := 0 }) =
      ({ proto_major := 7, proto_minor := 8, initialized := true, destroyed := false },
       some (SessionReply.raw
         { major := 7, minor := 8, max_readahead := 131072, flags := 0, max_write := 131072 })) ∧
    dispatch 135168 131072
        { proto_major := 0, proto_minor := 0, initialized := false, destroyed := false }
        (SessionOperation.init { major := 6, minor := 99, max_readahead := 131072, flags := 0 }) =
      ({ proto_major := 0, proto_minor := 0, initialized := false, destroyed := false },
       some (SessionReply.err EPROTO)) := by
  constructor
  · have h := (c4_init_handshake 135168 131072
      { proto_major := 0, proto_minor := 0, initialized := false, destroyed := false }
      { major := 7, minor := 8, max_readahead := 131072, flags := 0 }
      (by decide) (by decide)).2 (by decide)
    simpa using h
  · exact (c4_init_handshake 135168 131072
      { proto_major := 0, proto_minor := 0, initialized := false, destroyed := false }
      { major := 6, minor := 99, max_readahead := 131072, flags := 0 }
      (by decide) (by decide)).1 (by decide)

/-- C5, recording the divergence from the claim: on an initialized,
non-destroyed session a message with an unknown opcode (the NoImplementation
variant) produces no reply at all - the dispatcher only logs - instead of the
ENOSYS reply the claim and the spec require. -/
theorem c5_no_implementation_sends_no_reply :
    dispatch 135168 131072
        { proto_major := 7, proto_minor := 8, initialized := true, destroyed := false }
        SessionOperation.noImplementation =
      ({ proto_major := 7, proto_minor := 8, initialized := true, destroyed := false },
       none) ∧
    (none : Option SessionReply) ≠ some (SessionReply.err ENOSYS) := by
  constructor
  · rfl
  · decide

/-- C8, recording the divergence from the claim: helper_load_dir_data drops a
non-hidden entry of type Directory from the loaded map (its type filter maps
Type::Directory to false, keeping only Type::File), while a non-hidden
regular-file entry is kept and a hidden one is skipped. -/
theorem c8_load_dir_data_drops_directories :
    load_dir_data [] [{ ino := 5, name := "sub", ftype := some NixType.directory }] = [] ∧
    isHiddenName "sub" = false ∧
    load_dir_data [] [{ ino := 3, name := "f", ftype := some NixType.file }] =
      [{ ino := 3, name := "f", entry_type := NixType.file }] ∧
    load_dir_data [] [{ ino := 9, name := ".hidden", ftype := some NixType.file }] = [] := by
  refine ⟨by decide, by decide, by decide, by decide⟩

theorem read_helper_spec (content : List Nat) (offset size : Nat)
    (hbound : offset + size < 2 ^ 64) :
    (content.length ≤ offset → read_helper content offset size = some (Except.error EINVAL)) ∧
    (offset < content.length →
      read_helper content offset size =
        some (Except.ok ((content.take (min (offset + size) content.length)).drop offset))) := by
  have hadd : overflow_add_u 64 offset size = offset + size :=
    overflow_add_u_eq_self 64 offset size hbound
  constructor
  · intro h
    unfold read_helper
    rw [if_neg (Nat.not_lt.mpr h)]
  · intro h
    unfold read_helper
    rw [if_pos h]
    simp only [hadd]
    by_cases hlt : offset + size < content.length
    · rw [if_pos hlt, if_pos (Nat.le_add_right offset size)]
      rw [Nat.min_eq_left (le_of_lt hlt), List.drop_take]
    · rw [if_neg hlt]
      rw [Nat.min_eq_right (Nat.not_lt.mp hlt), List.take_length]


/-- C2: reading a cached regular file whose loaded content has length len
replies EINVAL when offset is at least len, and otherwise replies exactly the
byte slice from offset to min(offset + size, len).  The bounds on offset and
size are those of the wire types (nonnegative i64 and u32). -/
theorem c2_read_bounds (disk : List Nat) (fs : MemoryFilesystem) (ino : Nat)
    (f : FileNode) (offset size : Nat)
    (hf : fs.cache ino = some (INode.file f))
    (hoff : offset < 2 ^ 63) (hsz : size < 2 ^ 32) :
    ((f.loadedData disk).length ≤ offset →
      MemoryFilesystem.read disk fs ino offset size = some (Except.error EINVAL)) ∧
    (offset < (f.loadedData disk).length →
      MemoryFilesystem.read disk fs ino offset size =
        some (Except.ok (((f.loadedData disk).take
          (min (offset + size) (f.loadedData disk).length)).drop offset))) := by
  have h := read_helper_spec (f.loadedData disk) offset size (by omega)
  constructor
  · intro hlen
    simp [MemoryFilesystem.read, hf, INode.asFile, h.1 hlen]
  · intro hlt
    simp [MemoryFilesystem.read, hf, INode.asFile, h.2 hlt]

/-- Fixture for the C2 witness: a filesystem caching one five-byte file. -/
def c2attr : FileAttr :=
  { ino := 2, size := 5, blocks := 0, atime := 0, mtime := 0, ctime := 0,
    crtime := 0, kind := FileType.regularFile, perm := 420, nlink := 1,
    uid := 0, gid := 0, rdev := 0, flags := 0 }

/-- Fixture file node for C2. -/
def c2file : FileNode :=
  { parent := 1, name := "f", attr := c2attr, data := [104, 101, 108, 108, 111],
    open_count := 1, lookup_count := 1 }

/-- Fixture filesystem for C2. -/
def c2fs : MemoryFilesystem :=
  { cache := fun i => if i = 2 then some (INode.file c2file) else none,
    trash := [] }

/-- Witness for C2: both branches at concrete inputs (spec scenario 2: a
five-byte file replies its bytes to read(0, 8) and EINVAL to read(5, 1)). -/
theorem c2_read_bounds_witness :
    MemoryFilesystem.read [] c2fs 2 5 1 = some (Except.error EINVAL) ∧
    MemoryFilesystem.read [] c2fs 2 0 8 =
      some (Except.ok [104, 101, 108, 108, 111]) := by
  constructor
  · exact (c2_read_bounds [] c2fs 2 c2file 5 1 rfl (by decide) (by decide)).1
      (by decide)
  · have h := (c2_read_bounds [] c2fs 2 c2file 0 8 rfl (by decide) (by decide)).2
      (by decide)
    simpa using h

theorem write_file_spec (f : FileNode) (offset : Nat) (data : List Nat) (now : Nat)
    (hoff : offset < 2 ^ 64) :
    ∃ pre : List Nat, pre.length = offset ∧
      f.write_file offset data now =
        ({ f with data := pre ++ data,
                  attr := { f.attr with size := offset + data.length, mtime := now } },
         data.length) := by
  unfold FileNode.write_file
  by_cases h1 : offset < f.data.length
  · refine ⟨f.data.take offset, by simp [List.length_take]; omega, ?_⟩
    simp only [if_pos h1]
    have hl : (f.data.take offset ++ data).length = offset + data.length := by
      simp [List.length_take]
      omega
    simp [hl]
  · by_cases h2 : f.data.length < offset
    · refine ⟨f.data ++ List.replicate (overflow_sub_u 64 offset f.data.length) 0, ?_, ?_⟩
      · rw [overflow_sub_u_of_le 64 offset f.data.length (by omega) hoff]
        simp
        omega
      · simp only [if_neg h1, if_pos h2]
        have hl : ((f.data ++ List.replicate (overflow_sub_u 64 offset f.data.length) 0) ++ data).length
            = offset + data.length := by
          rw [overflow_sub_u_of_le 64 offset f.data.length (by omega) hoff]
          simp
          omega
        simp only [hl]
    · have he : f.data.length = offset := by omega
      refine ⟨f.data, he, ?_⟩
      simp only [if_neg h1, if_neg h2]
      have hl : (f.data ++ data).length = offset + data.length := by simp [he]
      simp [hl]

/-- C3 (amended): a successful write(offset, data) with nonempty data is read
back exactly by read(offset, len(data)), and the post-write attribute size is
offset + len(data): write_file truncates the buffer at offset before
appending, discarding any previous content beyond the written range, so the
size is not max(previous_size, offset + len(data)). -/
theorem c3_write_read_back_truncates (disk : List Nat) (fs : MemoryFilesystem) (ino : Nat) (f : FileNode)
    (offset : Nat) (data : List Nat) (now : Nat)
    (hf : fs.cache ino = some (INode.file f))
    (hne : data ≠ [])
    (hoff : offset < 2 ^ 63) (hlen : data.length < 2 ^ 32) :
    ∃ fs2, fs.write ino offset data now = some (fs2, data.length) ∧
      ∃ f2, fs2.cache ino = some (INode.file f2) ∧
        f2.attr.size = offset + data.length ∧
        MemoryFilesystem.read disk fs2 ino offset data.length =
          some (Except.ok data) := by
  obtain ⟨pre, hpre, hw⟩ := write_file_spec f offset data now (by omega)
  have hdata : 0 < data.length := List.length_pos.mpr hne
  set f2 : FileNode :=
    { f with data := pre ++ data,
             attr := { f.attr with size := offset + data.length, mtime := now } } with hf2
  refine ⟨{ fs with cache := cacheAdjust fs.cache ino (fun _ => INode.file f2) }, ?_, f2, ?_, ?_, ?_⟩
  · simp [MemoryFilesystem.write, hf, INode.asFile, hw, hf2]
  · simp [cacheAdjust, hf]
  · simp [hf2]
  · have hfull : (pre ++ data).length = offset + data.length := by simp [hpre]
    have hld : FileNode.loadedData disk f2 = pre ++ data := by
      unfold FileNode.loadedData INode.need_load_data INode.is_empty
      simp [hf2, hne]
    have hr := (read_helper_spec (pre ++ data) offset data.length (by omega)).2
      (by rw [hfull]; omega)
    rw [hfull, Nat.min_self] at hr
    rw [show List.take (offset + data.length) (pre ++ data) = pre ++ data by
      rw [← hfull]; exact List.take_length _] at hr
    have hdrop : (pre ++ data).drop offset = data := by
      rw [← hpre, List.drop_left]
    rw [hdrop] at hr
    simp [MemoryFilesystem.read, cacheAdjust, hf, INode.asFile, hld, hr]

/-- Fixture for C3: a cached five-byte file about to be overwritten. -/
def c3file : FileNode :=
  { parent := 1, name := "f", attr := c2attr, data := [1, 2, 3, 4, 5],
    open_count := 1, lookup_count := 1 }

/-- Fixture filesystem for C3. -/
def c3fs : MemoryFilesystem :=
  { cache := fun i => if i = 2 then some (INode.file c3file) else none,
    trash := [] }

/-- Counterexample for C3 as stated: writing one byte at offset 0 over a
five-byte file leaves attribute size 1, not max(previous_size, offset +
len(data)) = 5 - the buffer is truncated at the write offset. -/
theorem c3_counterexample :
    Option.bind (c3fs.write 2 0 [9] 7)
        (fun r => Option.map (fun n => n.get_attr.size) (r.1.cache 2)) = some 1 ∧
    c3file.attr.size = 5 ∧ (1 : Nat) ≠ max 5 (0 + 1) := by
  refine ⟨by decide, by decide, by decide⟩

/-- Witness for C3 (amended): the theorem at a concrete input. -/
theorem c3_write_read_back_truncates_witness :
    ∃ fs2, c3fs.write 2 0 [9] 7 = some (fs2, 1) ∧
      ∃ f2, fs2.cache 2 = some (INode.file f2) ∧ f2.attr.size = 0 + 1 ∧
        MemoryFilesystem.read [] fs2 2 0 1 = some (Except.ok [9]) := by
  have h := c3_write_read_back_truncates [] c3fs 2 c3file 0 [9] 7 rfl
    (by decide) (by decide) (by decide)
  simpa using h

/-- C6 (amended): when the source name exists in the old parent directory,
its inode and the new parent are cached, and the new parent already has an
entry named newname, rename replies EEXIST and returns the state unchanged -
literally the same filesystem value, so every directory map, every parent and
name field, the cache, the trash set and all counters are untouched. -/
theorem c6_rename_noreplace (fs : MemoryFilesystem) (parent : Nat)
    (name : String) (new_parent : Nat) (newname : String) (pd npd : DirNode)
    (old_entry : DirEntry)
    (hp : fs.cache parent = some (INode.dir pd))
    (hold : dmLookup pd.data name = some old_entry)
    (hchild : (fs.cache old_entry.ino).isSome)
    (hnp : fs.cache new_parent = some (INode.dir npd))
    (hnew : (dmLookup npd.data newname).isSome) :
    fs.rename parent name new_parent newname = some (fs, Except.error EEXIST) := by
  obtain ⟨c, hc⟩ := Option.isSome_iff_exists.mp hchild
  obtain ⟨e, he⟩ := Option.isSome_iff_exists.mp hnew
  simp [MemoryFilesystem.rename, hp, INode.asDir, hold, hc, hnp, he]

/-- Fixture for C6: the root caches entries x (ino 3) and y (ino 2). -/
def c6rootAttr : FileAttr :=
  { ino := 1, size := 0, blocks := 0, atime := 0, mtime := 0, ctime := 0,
    crtime := 0, kind := FileType.directory, perm := 493, nlink := 2,
    uid := 0, gid := 0, rdev := 0, flags := 0 }

/-- Fixture root directory holding only y, for the counterexample. -/
def c6root : DirNode :=
  { parent := 1, name := "/", attr := c6rootAttr,
    data := [{ ino := 2, name := "y", entry_type := NixType.file }],
    open_count := 1, lookup_count := 1 }

/-- Fixture inode for y. -/
def c6y : FileNode :=
  { parent := 1, name := "y", attr := { c2attr with ino := 2, size := 0 },
    data := [], open_count := 1, lookup_count := 1 }

/-- Fixture inode for x. -/
def c6x : FileNode :=
  { parent := 1, name := "x", attr := { c2attr with ino := 3, size := 0 },
    data := [], open_count := 1, lookup_count := 1 }

/-- Fixture filesystem without x, for the counterexample. -/
def c6fs : MemoryFilesystem :=
  { cache := fun i =>
      if i = 1 then some (INode.dir c6root)
      else if i = 2 then some (INode.file c6y) else none,
    trash := [] }

/-- Fixture root directory holding x and y, for the witness. -/
def c6root2 : DirNode :=
  { c6root with data := [{ ino := 3, name := "x", entry_type := NixType.file },
                         { ino := 2, name := "y", entry_type := NixType.file }] }

/-- Fixture filesystem with x and y, for the witness. -/
def c6fs2 : MemoryFilesystem :=
  { cache := fun i =>
      if i = 1 then some (INode.dir c6root2)
      else if i = 2 then some (INode.file c6y)
      else if i = 3 then some (INode.file c6x) else none,
    trash := [] }

/-- Counterexample for C6 as stated: when the source name x does not exist
but the destination name y does, the reply is ENOENT, not the EEXIST the
claim requires (the source-name check runs first). -/
theorem c6_counterexample :
    Option.map Prod.snd (c6fs.rename 1 "x" 1 "y") = some (Except.error ENOENT) ∧
    (dmLookup c6root.data "y").isSome = true ∧
    ENOENT ≠ EEXIST := by
  refine ⟨by rfl, by decide, by decide⟩

/-- Witness for C6 (amended): the theorem at a concrete input. -/
theorem c6_rename_noreplace_witness :
    c6fs2.rename 1 "x" 1 "y" = some (c6fs2, Except.error EEXIST) :=
  c6_rename_noreplace c6fs2 1 "x" 1 "y" c6root2 c6root2
    { ino := 3, name := "x", entry_type := NixType.file }
    rfl (by decide) (by decide) rfl (by decide)
/-- Pointwise specification of List.mapM over Option: when the function
succeeds on every element, the result exists, has the same length, and agrees
with the function index by index. -/
theorem mapM_option_spec {α β : Type} (f : α → Option β) :
    ∀ (l : List α), (∀ x ∈ l, (f x).isSome) →
    ∃ r : List β, l.mapM f = some r ∧ r.length = l.length ∧
      ∀ j (hj2 : j < l.length) (hj : j < r.length),
        f (l.get ⟨j, hj2⟩) = some (r.get ⟨j, hj⟩)
  | [], _ => ⟨[], by rw [← List.mapM'_eq_mapM]; simp⟩
  | x :: l, h => by
    have hx : (f x).isSome := h x (by simp)
    obtain ⟨y, hy⟩ := Option.isSome_iff_exists.mp hx
    obtain ⟨r, hr, hlen, hget⟩ := mapM_option_spec f l (fun a ha => h a (by simp [ha]))
    refine ⟨y :: r, ?_, by simp [hlen], ?_⟩
    · rw [← List.mapM'_eq_mapM] at hr ⊢
      simp [List.mapM'_cons, hy, hr]
    · intro j hj2 hj
      cases j with
      | zero => simpa using hy
      | succ n => simpa using hget n (by simpa using hj2) (by simpa using hj)

/-- wrapI at width 64 is the identity on small nonnegative values. -/
theorem wrapI64_eq_self_of_nonneg (x : Int) (h1 : 0 ≤ x) (h2 : x < 2 ^ 63) :
    wrapI 64 x = x := by
  refine wrapI_eq_self 64 x (by norm_num) ?_ ?_ <;> norm_num <;> omega

set_option maxRecDepth 4000 in
/-- C7: readdir on a directory whose (loaded) ordered map holds n entries,
called with kernel offset k between 0 and n, replies exactly the entries at
positions k+1..n of the map in order; the record for the entry with enumerate
index i = k + j carries next-offset k + i + 1 (the source iterates
enumerate().skip(offset), so i counts from the absolute map position), and
the emitted offsets are strictly increasing - a monotonic per-directory
cursor. -/
theorem c7_readdir_cursor (backing : List BackingEntry) (fs : MemoryFilesystem)
    (ino : Nat) (d : DirNode) (data : List DirEntry) (k : Nat)
    (hd : fs.cache ino = some (INode.dir d))
    (hdata : d.loadedData backing = data)
    (htypes : ∀ e ∈ data, e.entry_type = NixType.file ∨ e.entry_type = NixType.directory)
    (hk : k ≤ data.length) (hn : data.length < 2 ^ 62) :
    ∃ records, MemoryFilesystem.readdir backing fs ino (k : Int) = some records ∧
      records.length = data.length - k ∧
      (∀ j (hj2 : k + j < data.length) (hj : j < records.length),
        (records.get ⟨j, hj⟩).1 = (data.get ⟨k + j, hj2⟩).ino ∧
        (records.get ⟨j, hj⟩).2.1 = ((k : Int) + ((k + j : Nat) : Int)) + 1 ∧
        convert_node_type (data.get ⟨k + j, hj2⟩).entry_type =
          some (records.get ⟨j, hj⟩).2.2.1 ∧
        (records.get ⟨j, hj⟩).2.2.2 = (data.get ⟨k + j, hj2⟩).name) ∧
      (∀ j1 j2 (h1 : j1 < records.length) (h2 : j2 < records.length),
        j1 < j2 → (records.get ⟨j1, h1⟩).2.1 < (records.get ⟨j2, h2⟩).2.1) := by
  have hk64 : i64ToUsize (k : Int) = k := by
    unfold i64ToUsize
    rw [wrapU_natCast, Nat.mod_eq_of_lt (by omega)]
  set f : Nat × DirEntry → Option (Nat × Int × FileType × String) := fun p =>
    (convert_node_type p.2.entry_type).map
      (fun kk =>
        (p.2.ino, overflow_add_i 64 (overflow_add_i 64 (k : Int) (wrapI 64 p.1)) 1,
         kk, p.2.name)) with hfdef
  set L : List (Nat × DirEntry) := data.enum.drop k with hLdef
  have hLlen : L.length = data.length - k := by
    simp [hLdef, List.enum_length]
  have hLget : ∀ j (hj : j < L.length) (hj2 : k + j < data.length),
      L.get ⟨j, hj⟩ = (k + j, data.get ⟨k + j, hj2⟩) := by
    intro j hj hj2
    have h1 : k + j < data.enum.length := by simp [List.enum_length]; omega
    simp [hLdef, List.getElem_drop, List.getElem_enum]
  have hfval : ∀ j (hj2 : k + j < data.length) (kk : FileType),
      convert_node_type (data.get ⟨k + j, hj2⟩).entry_type = some kk →
      f (k + j, data.get ⟨k + j, hj2⟩) =
        some ((data.get ⟨k + j, hj2⟩).ino, ((k : Int) + ((k + j : Nat) : Int)) + 1,
          kk, (data.get ⟨k + j, hj2⟩).name) := by
    intro j hj2 kk hkk
    have hwr : wrapI 64 (((k + j : Nat) : Int)) = ((k + j : Nat) : Int) :=
      wrapI64_eq_self_of_nonneg _ (by omega) (by push_cast; omega)
    have ha1 : overflow_add_i 64 (k : Int) ((k + j : Nat) : Int) =
        (k : Int) + ((k + j : Nat) : Int) := by
      rw [overflow_add_i_eq]
      exact wrapI64_eq_self_of_nonneg _ (by omega) (by push_cast; omega)
    have ha2 : overflow_add_i 64 ((k : Int) + ((k + j : Nat) : Int)) 1 =
        (k : Int) + ((k + j : Nat) : Int) + 1 := by
      rw [overflow_add_i_eq]
      exact wrapI64_eq_self_of_nonneg _ (by omega) (by push_cast; omega)
    rw [hfdef]
    simp only [hkk, Option.map_some, hwr, ha1, ha2]
    rfl
  have hsome : ∀ x ∈ L, (f x).isSome := by
    intro x hx
    obtain ⟨⟨j, hj⟩, rfl⟩ := List.mem_iff_get.mp hx
    have hj2 : k + j < data.length := by omega
    rw [hLget j hj hj2]
    rcases htypes (data.get ⟨k + j, hj2⟩) (List.get_mem data _ _) with ht | ht <;>
      simp only [List.get_eq_getElem] at ht
    · rw [hfval j hj2 FileType.regularFile (by simp [convert_node_type, ht])]
      rfl
    · rw [hfval j hj2 FileType.directory (by simp [convert_node_type, ht])]
      rfl
  obtain ⟨r, hr, hlen, hget⟩ := mapM_option_spec f L hsome
  have hstep : MemoryFilesystem.readdir backing fs ino (k : Int) =
      readdir_helper data (k : Int) := by
    simp [MemoryFilesystem.readdir, hd, INode.asDir, hdata]
  have hrh : readdir_helper data (k : Int) = L.mapM f := by
    unfold readdir_helper
    rw [hk64]
  have hreaddir : MemoryFilesystem.readdir backing fs ino (k : Int) = some r := by
    rw [hstep, hrh, hr]
  have hpoint : ∀ j (hj2 : k + j < data.length) (hj : j < r.length),
      ∃ kk, convert_node_type (data.get ⟨k + j, hj2⟩).entry_type = some kk ∧
        r.get ⟨j, hj⟩ = ((data.get ⟨k + j, hj2⟩).ino,
          ((k : Int) + ((k + j : Nat) : Int)) + 1, kk,
          (data.get ⟨k + j, hj2⟩).name) := by
    intro j hj2 hj
    have hjL : j < L.length := by omega
    have hthis := hget j hjL hj
    rw [hLget j hjL hj2] at hthis
    rcases htypes (data.get ⟨k + j, hj2⟩) (List.get_mem data _ _) with ht | ht <;>
      simp only [List.get_eq_getElem] at ht
    · have hkk : convert_node_type (data.get ⟨k + j, hj2⟩).entry_type =
          some FileType.regularFile := by simp [convert_node_type, ht]
      rw [hfval j hj2 FileType.regularFile hkk] at hthis
      exact ⟨FileType.regularFile, hkk, (Option.some_injective _ hthis).symm⟩
    · have hkk : convert_node_type (data.get ⟨k + j, hj2⟩).entry_type =
          some FileType.directory := by simp [convert_node_type, ht]
      rw [hfval j hj2 FileType.directory hkk] at hthis
      exact ⟨FileType.directory, hkk, (Option.some_injective _ hthis).symm⟩
  refine ⟨r, hreaddir, by omega, ?_, ?_⟩
  · intro j hj2 hj
    obtain ⟨kk, hkk, heq⟩ := hpoint j hj2 hj
    rw [heq]
    exact ⟨rfl, rfl, hkk, rfl⟩
  · intro j1 j2 h1 h2 hlt
    have e1 : k + j1 < data.length := by omega
    have e2 : k + j2 < data.length := by omega
    obtain ⟨kk1, _, heq1⟩ := hpoint j1 e1 h1
    obtain ⟨kk2, _, heq2⟩ := hpoint j2 e2 h2
    rw [heq1, heq2]
    push_cast
    omega

/-- Fixture attribute for the C7 directory. -/
def c7attr : FileAttr :=
  { ino := 1, size := 0, blocks := 0, atime := 0, mtime := 0, ctime := 0,
    crtime := 0, kind := FileType.directory, perm := 493, nlink := 2,
    uid := 0, gid := 0, rdev := 0, flags := 0 }

/-- Fixture entry list a, b, c for C7 (spec scenario 4). -/
def c7data : List DirEntry :=
  [{ ino := 2, name := "a", entry_type := NixType.file },
   { ino := 3, name := "b", entry_type := NixType.file },
   { ino := 4, name := "c", entry_type := NixType.directory }]

/-- Fixture directory node for C7. -/
def c7dir : DirNode :=
  { parent := 1, name := "/", attr := c7attr, data := c7data,
    open_count := 1, lookup_count := 1 }

/-- Fixture filesystem for C7. -/
def c7fs : MemoryFilesystem :=
  { cache := fun i => if i = 1 then some (INode.dir c7dir) else none,
    trash := [] }

/-- Witness for C7: the theorem applied to the three-entry directory at
kernel offsets 0 and 2, together with the two concrete replies: offsets 0
yields the three records with next-offsets 1, 2, 3, and offset 2 yields only
the record of the last entry. -/
theorem c7_readdir_cursor_witness :
    (∃ records, MemoryFilesystem.readdir [] c7fs 1 ((0 : Nat) : Int) = some records ∧
      records.length = 3 - 0) ∧
    (∃ records, MemoryFilesystem.readdir [] c7fs 1 ((2 : Nat) : Int) = some records ∧
      records.length = 3 - 2) ∧
    MemoryFilesystem.readdir [] c7fs 1 (0 : Int) =
      some [(2, 1, FileType.regularFile, "a"), (3, 2, FileType.regularFile, "b"),
            (4, 3, FileType.directory, "c")] ∧
    MemoryFilesystem.readdir [] c7fs 1 (2 : Int) =
      some [(4, 5, FileType.directory, "c")] := by
  refine ⟨?_, ?_, by rfl, by rfl⟩
  · obtain ⟨r, h1, h2, -, -⟩ := c7_readdir_cursor [] c7fs 1 c7dir c7data 0
      rfl (by decide) (by decide) (by decide) (by decide)
    exact ⟨r, h1, h2⟩
  · obtain ⟨r, h1, h2, -, -⟩ := c7_readdir_cursor [] c7fs 1 c7dir c7data 2
      rfl (by decide) (by decide) (by decide) (by decide)
    exact ⟨r, h1, h2⟩

/-- A name removed from a directory map is no longer found. -/
theorem dmLookup_dmRemove_self (l : List DirEntry) (name : String) :
    dmLookup (dmRemove l name) name = none := by
  unfold dmLookup dmRemove
  rw [List.find?_eq_none]
  intro e he
  have h2 := (List.mem_filter.mp he).2
  simp at h2
  simp [h2]

/-- tsInsert puts the element into the set. -/
theorem mem_tsInsert_self (l : List Nat) (x : Nat) : x ∈ tsInsert l x := by
  induction l with
  | nil => simp [tsInsert]
  | cons y ys ih =>
    unfold tsInsert
    split_ifs with h1 h2
    · simp
    · simp [h2]
    · simp [ih]

/-- The trash set contains a freshly inserted ino. -/
theorem tsContains_tsInsert_self (l : List Nat) (x : Nat) :
    tsContains (tsInsert l x) x = true := by
  unfold tsContains
  exact List.elem_iff.mpr (mem_tsInsert_self l x)

/-- The trash set no longer contains a removed ino. -/
theorem tsContains_tsRemove_self (l : List Nat) (x : Nat) :
    tsContains (tsRemove l x) x = false := by
  unfold tsContains tsRemove
  rw [Bool.eq_false_iff]
  intro hcon
  have hm := List.elem_iff.mp hcon
  have h2 := (List.mem_filter.mp hm).2
  simp at h2

/-- The state transition of helper_may_deferred_delete_node: the child entry
leaves the map of its parent, and the inode is either moved into the trash
(positive lookup count) or dropped from the cache. -/
theorem helper_may_deferred_spec (fs : MemoryFilesystem) (parent : Nat)
    (name : String) (pd : DirNode) (entry : DirEntry) (child : INode)
    (h1 : fs.cache parent = some (INode.dir pd))
    (h2 : dmLookup pd.data name = some entry)
    (h3 : fs.cache entry.ino = some child)
    (h4 : child.get_parent_ino = parent)
    (h5 : child.get_name = name)
    (h7 : entry.entry_type = NixType.file ∨ entry.entry_type = NixType.directory) :
    fs.helper_may_deferred_delete_node entry.ino =
      some (if 0 < child.get_lookup_count then
              { cache := cacheAdjust fs.cache parent (fun n => n.remove_entry name),
                trash := tsInsert fs.trash entry.ino }
            else
              { cache := cacheRemove
                  (cacheAdjust fs.cache parent (fun n => n.remove_entry name)) entry.ino,
                trash := fs.trash }) := by
  unfold MemoryFilesystem.helper_may_deferred_delete_node
  rw [h3]
  rcases h7 with ht | ht <;>
    simp [h4, h5, h1, INode.asDir, h2, ht] <;>
    split_ifs <;> rfl

/-- C1: the deferred-deletion discipline.  First part (unlink and rmdir via
helper_remove_node): when every pre-check passes, the entry of the child is
removed from the map of the parent, and the child either stays cached and enters
the trash (lookup count positive) or is dropped from the cache immediately.
Second part (forget): a forget that brings the lookup count to exactly zero
while the ino is in the trash removes the inode from both the cache and the
trash; a forget that leaves the count positive, or whose inode is not in the
trash, removes nothing from the cache. -/
theorem c1_deferred_deletion :
    (∀ (fs : MemoryFilesystem) (parent : Nat) (name : String) (ntype : NixType)
        (pd : DirNode) (entry : DirEntry) (child : INode),
      fs.cache parent = some (INode.dir pd) →
      dmLookup pd.data name = some entry →
      fs.cache entry.ino = some child →
      child.get_parent_ino = parent →
      child.get_name = name →
      entry.entry_type = ntype →
      (ntype = NixType.file ∨ ntype = NixType.directory) →
      (ntype = NixType.directory → child.is_empty = true) →
      ∃ fs2, fs.helper_remove_node parent name ntype = some (fs2, Except.ok ()) ∧
        (0 < child.get_lookup_count →
          (fs2.cache entry.ino).isSome = true ∧
          tsContains fs2.trash entry.ino = true ∧
          ∀ pd2, fs2.cache parent = some (INode.dir pd2) →
            dmLookup pd2.data name = none) ∧
        (child.get_lookup_count ≤ 0 → fs2.cache entry.ino = none)) ∧
    (∀ (fs : MemoryFilesystem) (ino : Nat) (n : Nat) (node : INode),
      fs.cache ino = some node →
      ∃ fs2, fs.forget ino n = some fs2 ∧
        (node.get_lookup_count - n = 0 ∧ tsContains fs.trash ino = true →
          fs2.cache ino = none ∧ tsContains fs2.trash ino = false) ∧
        ((0 < node.get_lookup_count - n ∨ tsContains fs.trash ino = false) →
          ∀ j, (fs.cache j).isSome = true → (fs2.cache j).isSome = true)) := by
  constructor
  · intro fs parent name ntype pd entry child h1 h2 h3 h4 h5 h6 h7 h8
    have hmd := helper_may_deferred_spec fs parent name pd entry child h1 h2 h3 h4 h5
      (by rw [h6]; exact h7)
    have hrn : fs.helper_remove_node parent name ntype =
        some (if 0 < child.get_lookup_count then
                { cache := cacheAdjust fs.cache parent (fun n => n.remove_entry name),
                  trash := tsInsert fs.trash entry.ino }
              else
                { cache := cacheRemove
                    (cacheAdjust fs.cache parent (fun n => n.remove_entry name)) entry.ino,
                  trash := fs.trash }, Except.ok ()) := by
      unfold MemoryFilesystem.helper_remove_node
      rcases h7 with ht | ht
      · rw [ht]
        simp [convert_node_type, h1, INode.asDir, h2, h3, hmd]
      · rw [ht]
        simp [convert_node_type, h1, INode.asDir, h2, h3, h8 ht, hmd]
    refine ⟨_, hrn, ?_, ?_⟩
    · intro hpos
      rw [if_pos hpos]
      refine ⟨?_, tsContains_tsInsert_self fs.trash entry.ino, ?_⟩
      · by_cases hpe : entry.ino = parent <;>
          simp [cacheAdjust, hpe, h1, h3]
      · intro pd2 hpd2
        have hme : cacheAdjust fs.cache parent (fun n => n.remove_entry name) parent
            = some (INode.dir { pd with data := dmRemove pd.data name }) := by
          simp [cacheAdjust, h1, INode.remove_entry]
        have hpd2b : cacheAdjust fs.cache parent (fun n => n.remove_entry name) parent
            = some (INode.dir pd2) := hpd2
        rw [hme] at hpd2b
        have h9 := Option.some_injective _ hpd2b
        injection h9 with h9
        rw [← h9]
        exact dmLookup_dmRemove_self pd.data name
    · intro hneg
      rw [if_neg (by omega)]
      simp [cacheRemove]
  · intro fs ino n node h
    have hb : fs.forget ino n =
        (if node.get_lookup_count - n = 0 ∧ tsContains fs.trash ino then
          some { cache := cacheRemove
                   (cacheAdjust fs.cache ino (fun nd => nd.dec_lookup_count_by n)) ino,
                 trash := tsRemove fs.trash ino }
        else
          some { cache := cacheAdjust fs.cache ino (fun nd => nd.dec_lookup_count_by n),
                 trash := fs.trash }) := by
      unfold MemoryFilesystem.forget
      rw [h]
      rfl
    have hforget : fs.forget ino n =
        some (if node.get_lookup_count - n = 0 ∧ tsContains fs.trash ino then
                { cache := cacheRemove
                    (cacheAdjust fs.cache ino (fun nd => nd.dec_lookup_count_by n)) ino,
                  trash := tsRemove fs.trash ino }
              else
                { cache := cacheAdjust fs.cache ino (fun nd => nd.dec_lookup_count_by n),
                  trash := fs.trash }) := by
      rw [hb]
      split_ifs <;> rfl
    refine ⟨_, hforget, ?_, ?_⟩
    · intro hc
      rw [if_pos (by exact ⟨hc.1, hc.2⟩)]
      exact ⟨by simp [cacheRemove], tsContains_tsRemove_self fs.trash ino⟩
    · intro hc
      have hcond : ¬ (node.get_lookup_count - n = 0 ∧ tsContains fs.trash ino = true) := by
        rcases hc with hpos | hfalse
        · intro hand
          omega
        · intro hand
          rw [hfalse] at hand
          exact Bool.false_ne_true hand.2
      rw [if_neg (by simpa using hcond)]
      intro j hj
      by_cases hji : j = ino <;> simp [cacheAdjust, hji, h, hj] at hj ⊢

/-- Fixture attribute for the C1 child file. -/
def c1fileAttr : FileAttr :=
  { ino := 2, size := 0, blocks := 0, atime := 0, mtime := 0, ctime := 0,
    crtime := 0, kind := FileType.regularFile, perm := 420, nlink := 1,
    uid := 0, gid := 0, rdev := 0, flags := 0 }

/-- Fixture child file with lookup count 1. -/
def c1file : FileNode :=
  { parent := 1, name := "f", attr := c1fileAttr, data := [],
    open_count := 0, lookup_count := 1 }

/-- Fixture root directory holding the child entry f. -/
def c1root : DirNode :=
  { parent := 1, name := "/", attr := { c1fileAttr with ino := 1, kind := FileType.directory },
    data := [{ ino := 2, name := "f", entry_type := NixType.file }],
    open_count := 1, lookup_count := 1 }

/-- Fixture filesystem for the unlink half of C1. -/
def c1fs : MemoryFilesystem :=
  { cache := fun i =>
      if i = 1 then some (INode.dir c1root)
      else if i = 2 then some (INode.file c1file) else none,
    trash := [] }

/-- Fixture filesystem for the forget half of C1: ino 2 already unlinked and
sitting in the trash. -/
def c1fsTrash : MemoryFilesystem :=
  { cache := fun i => if i = 2 then some (INode.file c1file) else none,
    trash := [2] }

/-- Witness for C1: both halves of the theorem applied to concrete states -
unlinking a file with lookup count 1 defers its deletion, and a forget
bringing the count to 0 while the ino is in the trash drains it. -/
theorem c1_deferred_deletion_witness :
    (∃ fs2, c1fs.helper_remove_node 1 "f" NixType.file = some (fs2, Except.ok ()) ∧
      (0 < (INode.file c1file).get_lookup_count →
        (fs2.cache 2).isSome = true ∧ tsContains fs2.trash 2 = true ∧
        ∀ pd2, fs2.cache 1 = some (INode.dir pd2) → dmLookup pd2.data "f" = none) ∧
      ((INode.file c1file).get_lookup_count ≤ 0 → fs2.cache 2 = none)) ∧
    (∃ fs2, c1fsTrash.forget 2 1 = some fs2 ∧
      ((INode.file c1file).get_lookup_count - (1 : Nat) = 0 ∧
          tsContains c1fsTrash.trash 2 = true →
        fs2.cache 2 = none ∧ tsContains fs2.trash 2 = false) ∧
      ((0 < (INode.file c1file).get_lookup_count - (1 : Nat) ∨
          tsContains c1fsTrash.trash 2 = false) →
        ∀ j, (c1fsTrash.cache j).isSome = true → (fs2.cache j).isSome = true)) := by
  constructor
  · exact c1_deferred_deletion.1 c1fs 1 "f" NixType.file c1root
      { ino := 2, name := "f", entry_type := NixType.file } (INode.file c1file)
      rfl (by decide) rfl (by decide) (by decide) (by decide)
      (Or.inl rfl) (by decide)
  · exact c1_deferred_deletion.2 c1fsTrash 2 1 (INode.file c1file) rfl

/-- Both counters of an inode are nonnegative. -/
def NodeOK (node : INode) : Prop :=
  0 ≤ node.get_lookup_count ∧ 0 ≤ node.get_open_count

/-- The claimed invariant: every cached inode has nonnegative lookup and
open counts. -/
def CountersOK (fs : MemoryFilesystem) : Prop :=
  ∀ ino node, fs.cache ino = some node → NodeOK node

/-- Adjusting one cache slot with a NodeOK-preserving function keeps the
invariant. -/
theorem countersOK_mk_adjust (fs : MemoryFilesystem) (k : Nat) (f : INode → INode)
    (t : List Nat) (h : CountersOK fs)
    (hf : ∀ v, fs.cache k = some v → NodeOK (f v)) :
    CountersOK { cache := cacheAdjust fs.cache k f, trash := t } := by
  intro i v hv
  simp only [cacheAdjust] at hv
  by_cases hik : i = k
  · rw [if_pos hik] at hv
    cases hck : fs.cache k with
    | none => rw [hck] at hv; simp at hv
    | some w =>
      rw [hck] at hv
      have h2 : f w = v := by simpa using hv
      rw [← h2]
      exact hf w hck
  · rw [if_neg hik] at hv
    exact h i v hv

/-- Inserting a NodeOK inode keeps the invariant. -/
theorem countersOK_mk_insert (fs : MemoryFilesystem) (k : Nat) (v0 : INode)
    (t : List Nat) (h : CountersOK fs) (hv0 : NodeOK v0) :
    CountersOK { cache := cacheInsert fs.cache k v0, trash := t } := by
  intro i v hv
  simp only [cacheInsert] at hv
  by_cases hik : i = k
  · rw [if_pos hik] at hv
    have := Option.some_injective _ hv
    rw [← this]
    exact hv0
  · rw [if_neg hik] at hv
    exact h i v hv

/-- Removing a cache slot keeps the invariant. -/
theorem countersOK_mk_remove (fs : MemoryFilesystem) (k : Nat) (t : List Nat)
    (h : CountersOK fs) :
    CountersOK { cache := cacheRemove fs.cache k, trash := t } := by
  intro i v hv
  simp only [cacheRemove] at hv
  by_cases hik : i = k
  · rw [if_pos hik] at hv
    simp at hv
  · rw [if_neg hik] at hv
    exact h i v hv

/-- A trash-only change keeps the invariant. -/
theorem countersOK_mk_same (fs : MemoryFilesystem) (t : List Nat)
    (h : CountersOK fs) : CountersOK { cache := fs.cache, trash := t } :=
  fun i v hv => h i v hv

/-- remove_entry does not touch the counters. -/
theorem nodeOK_remove_entry (n : INode) (s : String) (h : NodeOK n) :
    NodeOK (n.remove_entry s) := by
  cases n <;>
    simpa [NodeOK, INode.remove_entry, INode.get_lookup_count, INode.get_open_count]
      using h

/-- insert_entry does not touch the counters. -/
theorem nodeOK_insert_entry (n : INode) (e : DirEntry) (h : NodeOK n) :
    NodeOK (n.insert_entry e) := by
  cases n <;>
    simpa [NodeOK, INode.insert_entry, INode.get_lookup_count, INode.get_open_count]
      using h

/-- with_attr does not touch the counters. -/
theorem nodeOK_with_attr (n : INode) (a : FileAttr) (h : NodeOK n) :
    NodeOK (n.with_attr a) := by
  cases n <;>
    simpa [NodeOK, INode.with_attr, INode.get_lookup_count, INode.get_open_count]
      using h

/-- Re-parenting and renaming do not touch the counters. -/
theorem nodeOK_set_parent_set_name (n : INode) (p : Nat) (s : String) (h : NodeOK n) :
    NodeOK ((n.set_parent_ino p).set_name s) := by
  cases n <;>
    simpa [NodeOK, INode.set_parent_ino, INode.set_name, INode.get_lookup_count,
      INode.get_open_count] using h

/-- Incrementing the lookup count keeps both counters nonnegative. -/
theorem nodeOK_inc_lookup (n : INode) (h : NodeOK n) : NodeOK n.inc_lookup_count := by
  obtain ⟨h1, h2⟩ := h
  cases n <;>
    constructor <;>
      simp [INode.inc_lookup_count, INode.get_lookup_count, INode.get_open_count] at h1 h2 ⊢ <;>
      omega

/-- Incrementing the open count keeps both counters nonnegative. -/
theorem nodeOK_inc_open (n : INode) (h : NodeOK n) : NodeOK n.inc_open_count := by
  obtain ⟨h1, h2⟩ := h
  cases n <;>
    constructor <;>
      simp [INode.inc_open_count, INode.get_lookup_count, INode.get_open_count] at h1 h2 ⊢ <;>
      omega

/-- helper_may_deferred_delete_node preserves the counter invariant. -/
theorem countersOK_may_deferred (fs fs2 : MemoryFilesystem) (ino : Nat)
    (h : fs.helper_may_deferred_delete_node ino = some fs2) (hok : CountersOK fs) :
    CountersOK fs2 := by
  unfold MemoryFilesystem.helper_may_deferred_delete_node at h
  cases h1 : fs.cache ino with
  | none => rw [h1] at h; simp at h
  | some inode =>
    rw [h1] at h
    cases h2 : fs.cache inode.get_parent_ino with
    | none => simp [h2] at h
    | some p =>
      cases h3 : p.asDir with
      | none => simp [h2, h3] at h
      | some pd =>
        cases h4 : dmLookup pd.data inode.get_name with
        | none => simp [h2, h3, h4] at h
        | some deleted =>
          simp [h2, h3, h4] at h
          have hadj : CountersOK
              { cache := cacheAdjust fs.cache inode.get_parent_ino
                  (fun n => n.remove_entry inode.get_name), trash := tsInsert fs.trash ino } :=
            countersOK_mk_adjust fs inode.get_parent_ino _ _ hok
              (fun v hv => nodeOK_remove_entry v inode.get_name
                (hok inode.get_parent_ino v hv))
          have hadj2 : CountersOK
              { cache := cacheAdjust fs.cache inode.get_parent_ino
                  (fun n => n.remove_entry inode.get_name), trash := fs.trash } :=
            countersOK_mk_adjust fs inode.get_parent_ino _ _ hok
              (fun v hv => nodeOK_remove_entry v inode.get_name
                (hok inode.get_parent_ino v hv))
          rcases h5 : deleted.entry_type <;> rw [h5] at h <;> simp at h <;>
            split at h
          · exact (Option.some_injective _ h) ▸ hadj
          · exact (Option.some_injective _ h) ▸ countersOK_mk_remove _ ino fs.trash hadj2
          · exact (Option.some_injective _ h) ▸ hadj
          · exact (Option.some_injective _ h) ▸ countersOK_mk_remove _ ino fs.trash hadj2

/-- Decrementing the lookup count by at most its value stays nonnegative. -/
theorem nodeOK_dec_lookup_by (node : INode) (k : Nat)
    (hg : (k : Int) ≤ node.get_lookup_count) (h : NodeOK node) :
    NodeOK (node.dec_lookup_count_by k) := by
  obtain ⟨h1, h2⟩ := h
  cases node <;>
    constructor <;>
      simp [INode.dec_lookup_count_by, INode.get_lookup_count,
        INode.get_open_count] at h1 h2 hg ⊢ <;>
      omega

/-- Decrementing a positive open count stays nonnegative. -/
theorem nodeOK_dec_open (node : INode) (hg : 0 < node.get_open_count)
    (h : NodeOK node) : NodeOK node.dec_open_count := by
  obtain ⟨h1, h2⟩ := h
  cases node <;>
    constructor <;>
      simp [INode.dec_open_count, INode.get_lookup_count,
        INode.get_open_count] at h1 h2 hg ⊢ <;>
      omega

/-- A freshly opened child directory starts with both counters 1. -/
theorem nodeOK_open_child_dir (parent : Nat) (name : String) (attr : FileAttr)
    (backing : List BackingEntry) :
    NodeOK (INode.open_child_dir parent name attr backing) := by
  unfold INode.open_child_dir
  constructor <;>
    · dsimp only
      split <;> simp [INode.get_lookup_count, INode.get_open_count]

/-- A freshly opened child file starts with both counters 1. -/
theorem nodeOK_open_child_file (parent : Nat) (name : String) (attr : FileAttr) :
    NodeOK (INode.open_child_file parent name attr) := by
  constructor <;>
    simp [INode.open_child_file, INode.get_lookup_count, INode.get_open_count]

/-- write_file does not touch the counters. -/
theorem nodeOK_write_file (f : FileNode) (offset : Nat) (data : List Nat)
    (now : Nat) (h : NodeOK (INode.file f)) :
    NodeOK (INode.file (f.write_file offset data now).1) := by
  obtain ⟨h1, h2⟩ := h
  constructor <;>
    simp [FileNode.write_file, INode.get_lookup_count, INode.get_open_count]
      at h1 h2 ⊢ <;>
    assumption

/-- forget preserves the invariant when the delta is at most the current
lookup count. -/
theorem countersOK_forget (fs fs2 : MemoryFilesystem) (ino n : Nat) (node : INode)
    (h0 : fs.cache ino = some node) (hg : (n : Int) ≤ node.get_lookup_count)
    (h : fs.forget ino n = some fs2) (hok : CountersOK fs) : CountersOK fs2 := by
  unfold MemoryFilesystem.forget at h
  rw [h0] at h
  simp at h
  have hadj : ∀ t, CountersOK
      { cache := cacheAdjust fs.cache ino (fun nd => nd.dec_lookup_count_by n),
        trash := t } := by
    intro t
    refine countersOK_mk_adjust fs ino _ t hok ?_
    intro v hv
    rw [h0] at hv
    have hvn := Option.some_injective _ hv
    rw [← hvn]
    exact nodeOK_dec_lookup_by node n hg (hok ino node h0)
  split at h
  · exact (Option.some_injective _ h) ▸
      countersOK_mk_remove _ ino (tsRemove fs.trash ino) (hadj fs.trash)
  · exact (Option.some_injective _ h) ▸ hadj fs.trash

/-- release preserves the invariant when the open count is positive. -/
theorem countersOK_release (fs fs2 : MemoryFilesystem) (ino : Nat) (node : INode)
    (h0 : fs.cache ino = some node) (hg : 0 < node.get_open_count)
    (h : fs.release ino = some fs2) (hok : CountersOK fs) : CountersOK fs2 := by
  unfold MemoryFilesystem.release at h
  rw [h0] at h
  simp at h
  refine h ▸ countersOK_mk_adjust fs ino _ fs.trash hok ?_
  intro v hv
  rw [h0] at hv
  have hvn := Option.some_injective _ hv
  rw [← hvn]
  exact nodeOK_dec_open node hg (hok ino node h0)

/-- releasedir preserves the invariant when the open count is positive. -/
theorem countersOK_releasedir (fs fs2 : MemoryFilesystem) (ino : Nat) (node : INode)
    (h0 : fs.cache ino = some node) (hg : 0 < node.get_open_count)
    (h : fs.releasedir ino = some fs2) (hok : CountersOK fs) : CountersOK fs2 := by
  unfold MemoryFilesystem.releasedir at h
  rw [h0] at h
  simp at h
  refine h ▸ countersOK_mk_adjust fs ino _ fs.trash hok ?_
  intro v hv
  rw [h0] at hv
  have hvn := Option.some_injective _ hv
  rw [← hvn]
  exact nodeOK_dec_open node hg (hok ino node h0)

/-- open preserves the invariant. -/
theorem countersOK_openOp (fs fs2 : MemoryFilesystem) (ino : Nat)
    (h : fs.openOp ino = some fs2) (hok : CountersOK fs) : CountersOK fs2 := by
  unfold MemoryFilesystem.openOp at h
  cases h0 : fs.cache ino with
  | none => rw [h0] at h; simp at h
  | some node =>
    rw [h0] at h
    simp at h
    exact h ▸ countersOK_mk_adjust fs ino _ fs.trash hok
      (fun v hv => nodeOK_inc_open v (hok ino v hv))

/-- opendir preserves the invariant. -/
theorem countersOK_opendirOp (fs fs2 : MemoryFilesystem) (ino : Nat)
    (h : fs.opendirOp ino = some fs2) (hok : CountersOK fs) : CountersOK fs2 := by
  unfold MemoryFilesystem.opendirOp at h
  cases h0 : fs.cache ino with
  | none => rw [h0] at h; simp at h
  | some node =>
    rw [h0] at h
    simp at h
    exact h ▸ countersOK_mk_adjust fs ino _ fs.trash hok
      (fun v hv => nodeOK_inc_open v (hok ino v hv))

/-- write preserves the invariant. -/
theorem countersOK_write (fs fs2 : MemoryFilesystem) (ino offset : Nat)
    (data : List Nat) (now : Nat) (written : Nat)
    (h : fs.write ino offset data now = some (fs2, written))
    (hok : CountersOK fs) : CountersOK fs2 := by
  unfold MemoryFilesystem.write at h
  cases h0 : fs.cache ino with
  | none => rw [h0] at h; simp at h
  | some node =>
    rw [h0] at h
    cases h1 : node.asFile with
    | none => simp [h1] at h
    | some f =>
      simp [h1] at h
      have hnode : node = INode.file f := by
        cases node <;> simp [INode.asFile] at h1
        simp [h1]
      refine h.1 ▸ countersOK_mk_adjust fs ino _ fs.trash hok ?_
      intro v hv
      exact nodeOK_write_file f offset data now (hnode ▸ hok ino node h0)

/-- setattr preserves the invariant. -/
theorem countersOK_setattr (fs fs2 : MemoryFilesystem) (param : FsSetattrParam)
    (now : Nat) (r : Except Int FileAttr)
    (h : fs.setattr param now = some (fs2, r)) (hok : CountersOK fs) :
    CountersOK fs2 := by
  unfold MemoryFilesystem.setattr at h
  cases h0 : fs.cache param.ino with
  | none => rw [h0] at h; simp at h
  | some node =>
    rw [h0] at h
    simp at h
    split at h <;> simp at h
    · refine h.1 ▸ countersOK_mk_adjust fs param.ino _ fs.trash hok ?_
      intro v hv
      exact nodeOK_with_attr v _ (hok param.ino v hv)
    · exact h.1 ▸ hok

/-- rename preserves the invariant. -/
theorem countersOK_rename (fs fs2 : MemoryFilesystem) (parent : Nat)
    (name : String) (new_parent : Nat) (newname : String) (r : Except Int Unit)
    (h : fs.rename parent name new_parent newname = some (fs2, r))
    (hok : CountersOK fs) : CountersOK fs2 := by
  unfold MemoryFilesystem.rename at h
  cases h0 : fs.cache parent with
  | none => rw [h0] at h; simp at h
  | some p =>
    rw [h0] at h
    cases h1 : p.asDir with
    | none => simp [h1] at h
    | some pd =>
      cases h2 : dmLookup pd.data name with
      | none =>
        simp [h1, h2] at h
        exact h.1 ▸ hok
      | some old_entry =>
        cases h3 : fs.cache old_entry.ino with
        | none => simp [h1, h2, h3] at h
        | some child =>
          cases h4 : fs.cache new_parent with
          | none => simp [h1, h2, h3, h4] at h
          | some np =>
            cases h5 : np.asDir with
            | none => simp [h1, h2, h3, h4, h5] at h
            | some npd =>
              cases h6 : dmLookup npd.data newname with
              | some e =>
                simp [h1, h2, h3, h4, h5, h6] at h
                exact h.1 ▸ hok
              | none =>
                simp [h1, h2, h3, h4, h5, h6] at h
                have hA : CountersOK
                    { cache := cacheAdjust fs.cache old_entry.ino
                        (fun n => (n.set_parent_ino new_parent).set_name newname),
                      trash := fs.trash } :=
                  countersOK_mk_adjust fs old_entry.ino _ fs.trash hok
                    (fun v hv => nodeOK_set_parent_set_name v new_parent newname
                      (hok old_entry.ino v hv))
                have hB : CountersOK
                    { cache := cacheAdjust (cacheAdjust fs.cache old_entry.ino
                        (fun n => (n.set_parent_ino new_parent).set_name newname))
                        parent (fun n => n.remove_entry name),
                      trash := fs.trash } :=
                  countersOK_mk_adjust
                    { cache := cacheAdjust fs.cache old_entry.ino
                        (fun n => (n.set_parent_ino new_parent).set_name newname),
                      trash := fs.trash } parent _ fs.trash hA
                    (fun v hv => nodeOK_remove_entry v name (hA parent v hv))
                refine h.1 ▸ countersOK_mk_adjust
                    { cache := cacheAdjust (cacheAdjust fs.cache old_entry.ino
                        (fun n => (n.set_parent_ino new_parent).set_name newname))
                        parent (fun n => n.remove_entry name),
                      trash := fs.trash } new_parent _ fs.trash hB ?_
                intro v hv
                exact nodeOK_insert_entry v _ (hB new_parent v hv)

/-- lookup preserves the invariant. -/
theorem countersOK_lookup (fs fs2 : MemoryFilesystem) (parent : Nat)
    (name : String) (child_attr : FileAttr) (backing : List BackingEntry)
    (r : Except Int FileAttr)
    (h : fs.lookup parent name child_attr backing = some (fs2, r))
    (hok : CountersOK fs) : CountersOK fs2 := by
  unfold MemoryFilesystem.lookup at h
  cases h0 : fs.cache parent with
  | none => rw [h0] at h; simp at h
  | some p =>
    rw [h0] at h
    cases h1 : p.asDir with
    | none => simp [h1] at h
    | some pd =>
      cases h2 : dmLookup pd.data name with
      | none =>
        simp [h1, h2] at h
        exact h.1 ▸ hok
      | some child_entry =>
        cases h3 : convert_node_type child_entry.entry_type with
        | none => simp [h1, h2, h3] at h
        | some ct =>
          cases h4 : fs.cache child_entry.ino with
          | some inode =>
            simp [h1, h2, h3, h4] at h
            exact h.1 ▸ countersOK_mk_adjust fs child_entry.ino _ fs.trash hok
              (fun v hv => nodeOK_inc_lookup v (hok child_entry.ino v hv))
          | none =>
            simp [h1, h2, h3, h4] at h
            rcases hct : ct with _ | _ | _ | _ | _ | _ | _ <;>
              rw [hct] at h <;> simp at h
            · rw [← h.1]
              apply countersOK_mk_insert fs
              · exact hok
              · exact nodeOK_inc_lookup _
                  (nodeOK_open_child_dir parent name child_attr backing)
            · rw [← h.1]
              apply countersOK_mk_insert fs
              · exact hok
              · exact nodeOK_inc_lookup _
                  (nodeOK_open_child_file parent name child_attr)

/-- helper_create_node (mknod, mkdir, create) preserves the invariant. -/
theorem countersOK_create (fs fs2 : MemoryFilesystem) (parent : Nat)
    (name : String) (ntype : NixType) (child_attr : FileAttr)
    (r : Except Int FileAttr)
    (h : fs.helper_create_node parent name ntype child_attr = some (fs2, r))
    (hok : CountersOK fs) : CountersOK fs2 := by
  unfold MemoryFilesystem.helper_create_node at h
  cases h0 : convert_node_type ntype with
  | none => rw [h0] at h; simp at h
  | some kind =>
    rw [h0] at h
    cases h1 : fs.cache parent with
    | none => simp [h1] at h
    | some p =>
      cases h2 : p.get_entry name with
      | none => simp [h1, h2] at h
      | some occ =>
        cases occ with
        | some e =>
          simp [h1, h2] at h
          exact h.1 ▸ hok
        | none =>
          simp [h1, h2] at h
          have hCgen : ∀ et : NixType, CountersOK
              { cache := cacheAdjust fs.cache parent
                  (fun n => n.insert_entry
                    { ino := child_attr.ino, name := name, entry_type := et }),
                trash := fs.trash } := fun et =>
            countersOK_mk_adjust fs parent _ fs.trash hok
              (fun v hv => nodeOK_insert_entry v _ (hok parent v hv))
          rcases hk : kind with _ | _ | _ | _ | _ | _ | _ <;> rw [hk] at h <;>
            simp at h <;> rw [← h.1] <;>
            first
              | (apply countersOK_mk_insert
                  { cache := cacheAdjust fs.cache parent
                      (fun n => n.insert_entry
                        { ino := child_attr.ino, name := name,
                          entry_type := NixType.directory }),
                    trash := fs.trash }
                 · exact hCgen NixType.directory
                 · exact nodeOK_open_child_dir parent name child_attr [])
              | (apply countersOK_mk_insert
                  { cache := cacheAdjust fs.cache parent
                      (fun n => n.insert_entry
                        { ino := child_attr.ino, name := name,
                          entry_type := NixType.file }),
                    trash := fs.trash }
                 · exact hCgen NixType.file
                 · exact nodeOK_open_child_file parent name child_attr)

/-- helper_remove_node (unlink, rmdir) preserves the invariant. -/
theorem countersOK_remove_node (fs fs2 : MemoryFilesystem) (parent : Nat)
    (name : String) (ntype : NixType) (r : Except Int Unit)
    (h : fs.helper_remove_node parent name ntype = some (fs2, r))
    (hok : CountersOK fs) : CountersOK fs2 := by
  unfold MemoryFilesystem.helper_remove_node at h
  cases h0 : convert_node_type ntype with
  | none => rw [h0] at h; simp at h
  | some kind =>
    rw [h0] at h
    cases h1 : fs.cache parent with
    | none => simp [h1] at h
    | some p =>
      cases h2 : p.asDir with
      | none => simp [h1, h2] at h
      | some pd =>
        cases h3 : dmLookup pd.data name with
        | none =>
          simp [h1, h2, h3] at h
          exact h.1 ▸ hok
        | some child_entry =>
          simp [h1, h2, h3] at h
          split at h
          · cases h4 : fs.cache child_entry.ino with
            | none => rw [h4] at h; simp at h
            | some dirInode =>
              rw [h4] at h
              simp at h
              split at h
              · simp at h
                exact h.1 ▸ hok
              · cases h5 : fs.helper_may_deferred_delete_node child_entry.ino with
                | none => simp [h4, h5] at h
                | some fs3 =>
                  simp [h4, h5] at h
                  exact h.1 ▸ countersOK_may_deferred fs fs3 child_entry.ino h5 hok
          · cases h4 : fs.cache child_entry.ino with
            | none => rw [h4] at h; simp at h
            | some childInode =>
              cases h5 : fs.helper_may_deferred_delete_node child_entry.ino with
              | none => simp [h4, h5] at h
              | some fs3 =>
                simp [h4, h5] at h
                exact h.1 ▸ countersOK_may_deferred fs fs3 child_entry.ino h5 hok

/-- One filesystem operation, with the side conditions under which the
amended claim holds: a forget decrements by at most the current lookup
count, and release and releasedir run only on an inode with positive open
count.  All other embedded operations are unconditional. -/
inductive GoodStep : MemoryFilesystem → MemoryFilesystem → Prop where
  | lookup (fs fs2 : MemoryFilesystem) (parent : Nat) (name : String)
      (child_attr : FileAttr) (backing : List BackingEntry) (r : Except Int FileAttr) :
      fs.lookup parent name child_attr backing = some (fs2, r) → GoodStep fs fs2
  | create (fs fs2 : MemoryFilesystem) (parent : Nat) (name : String)
      (node_type : NixType) (child_attr : FileAttr) (r : Except Int FileAttr) :
      fs.helper_create_node parent name node_type child_attr = some (fs2, r) →
      GoodStep fs fs2
  | remove (fs fs2 : MemoryFilesystem) (parent : Nat) (name : String)
      (node_type : NixType) (r : Except Int Unit) :
      fs.helper_remove_node parent name node_type = some (fs2, r) → GoodStep fs fs2
  | forgetStep (fs fs2 : MemoryFilesystem) (ino n : Nat) (node : INode) :
      fs.cache ino = some node → (n : Int) ≤ node.get_lookup_count →
      fs.forget ino n = some fs2 → GoodStep fs fs2
  | openStep (fs fs2 : MemoryFilesystem) (ino : Nat) :
      fs.openOp ino = some fs2 → GoodStep fs fs2
  | opendirStep (fs fs2 : MemoryFilesystem) (ino : Nat) :
      fs.opendirOp ino = some fs2 → GoodStep fs fs2
  | releaseStep (fs fs2 : MemoryFilesystem) (ino : Nat) (node : INode) :
      fs.cache ino = some node → 0 < node.get_open_count →
      fs.release ino = some fs2 → GoodStep fs fs2
  | releasedirStep (fs fs2 : MemoryFilesystem) (ino : Nat) (node : INode) :
      fs.cache ino = some node → 0 < node.get_open_count →
      fs.releasedir ino = some fs2 → GoodStep fs fs2
  | writeStep (fs fs2 : MemoryFilesystem) (ino offset : Nat) (data : List Nat)
      (now written : Nat) :
      fs.write ino offset data now = some (fs2, written) → GoodStep fs fs2
  | renameStep (fs fs2 : MemoryFilesystem) (parent : Nat) (name : String)
      (new_parent : Nat) (newname : String) (r : Except Int Unit) :
      fs.rename parent name new_parent newname = some (fs2, r) → GoodStep fs fs2
  | setattrStep (fs fs2 : MemoryFilesystem) (param : FsSetattrParam) (now : Nat)
      (r : Except Int FileAttr) :
      fs.setattr param now = some (fs2, r) → GoodStep fs fs2

/-- Every guarded step preserves the counter invariant. -/
theorem countersOK_goodStep (fs fs2 : MemoryFilesystem) (h : GoodStep fs fs2)
    (hok : CountersOK fs) : CountersOK fs2 := by
  cases h with
  | lookup parent name child_attr backing r h =>
    exact countersOK_lookup fs fs2 parent name child_attr backing r h hok
  | create parent name node_type child_attr r h =>
    exact countersOK_create fs fs2 parent name node_type child_attr r h hok
  | remove parent name node_type r h =>
    exact countersOK_remove_node fs fs2 parent name node_type r h hok
  | forgetStep ino n node h0 hg h =>
    exact countersOK_forget fs fs2 ino n node h0 hg h hok
  | openStep ino h => exact countersOK_openOp fs fs2 ino h hok
  | opendirStep ino h => exact countersOK_opendirOp fs fs2 ino h hok
  | releaseStep ino node h0 hg h =>
    exact countersOK_release fs fs2 ino node h0 hg h hok
  | releasedirStep ino node h0 hg h =>
    exact countersOK_releasedir fs fs2 ino node h0 hg h hok
  | writeStep ino offset data now written h =>
    exact countersOK_write fs fs2 ino offset data now written h hok
  | renameStep parent name new_parent newname r h =>
    exact countersOK_rename fs fs2 parent name new_parent newname r h hok
  | setattrStep param now r h =>
    exact countersOK_setattr fs fs2 param now r h hok

/-- C9 (amended): after any sequence of filesystem operations in which each
forget decrements by at most the current lookup count of the target inode and
each release or releasedir runs only on an inode with positive open count,
every cached inode still has lookup_count >= 0 and open_count >= 0.  Without
those guards the counters go negative (the source only debug-asserts them),
as the counterexample shows. -/
theorem c9_counters_nonnegative (fs fs2 : MemoryFilesystem)
    (h0 : CountersOK fs) (h : Relation.ReflTransGen GoodStep fs fs2) :
    CountersOK fs2 := by
  induction h with
  | refl => exact h0
  | tail hstep hlast ih => exact countersOK_goodStep _ _ hlast ih

/-- Fixture root with both counters 1 for C9. -/
def c9root : DirNode :=
  { parent := 1, name := "/",
    attr := { ino := 1, size := 0, blocks := 0, atime := 0, mtime := 0, ctime := 0,
              crtime := 0, kind := FileType.directory, perm := 493, nlink := 2,
              uid := 0, gid := 0, rdev := 0, flags := 0 },
    data := [], open_count := 1, lookup_count := 1 }

/-- Fixture filesystem for C9. -/
def c9fs : MemoryFilesystem :=
  { cache := fun i => if i = 1 then some (INode.dir c9root) else none,
    trash := [] }

/-- The state after forget(1, 1) on the fixture. -/
def c9after : MemoryFilesystem :=
  { cache := cacheAdjust c9fs.cache 1 (fun nd => nd.dec_lookup_count_by 1),
    trash := [] }

/-- Counterexample for C9 as stated: forget with delta 2 on an inode whose
lookup count is 1 leaves it cached with lookup count -1 - an operation drove
the counter negative. -/
theorem c9_counterexample :
    Option.bind (c9fs.forget 1 2)
        (fun fs2 => Option.map INode.get_lookup_count (fs2.cache 1)) = some (-1) ∧
    ¬ (0 ≤ (-1 : Int)) := by
  refine ⟨by decide, by decide⟩

/-- Witness for C9 (amended): the theorem applied to a concrete single-step
sequence. -/
theorem c9_counters_nonnegative_witness : CountersOK c9after := by
  have h0 : CountersOK c9fs := by
    intro i node h
    by_cases hi : i = 1
    · subst hi
      simp [c9fs] at h
      rw [← h]
      constructor <;> decide
    · simp [c9fs, hi] at h
  have hstep : GoodStep c9fs c9after :=
    GoodStep.forgetStep c9fs c9after 1 1 (INode.dir c9root) rfl (by decide) rfl
  exact c9_counters_nonnegative c9fs c9after h0 (Relation.ReflTransGen.single hstep)

end SyncFuse
